import Mathlib

/-!
# HyperHDR flatbuffer client and shutdown animation

A shallow embedding of `libsrc/flatbufserver/FlatBufferConnection.cpp`:
the constructor with its address parsing, the reconnect slot (`connectToHost`),
the receive-side framing loop (`readData`), the reply handler (`parseReply`),
the send gate (`sendMessage`, `setRegister`) and the public send calls; and of
`Play` of `libsrc/effectengine/Animation_SystemShutdown.cpp`.

The flatbuffers library and the schema headers generated for it are not part
of the embedded file; what the client needs from them is collected in `Lib`.
The Qt socket is modelled by its reported state, the bytes handed to `write`
and the connect attempts made on it; `QString::toUShort` is a parameter of the
constructor.  Log output is not modelled.
-/

namespace HyperHDR

/-- One `char` / `uint8_t` of a `QByteArray` or of the wire. -/
abbrev Byte := Fin 256

/-- The values of `QAbstractSocket::SocketState`. -/
inductive SocketState
  | UnconnectedState
  | HostLookupState
  | ConnectingState
  | ConnectedState
  | BoundState
  | ListeningState
  | ClosingState
  deriving DecidableEq, Repr

/-- The colour triple taken by `setColor`. -/
structure ColorRgb where
  red : Byte
  green : Byte
  blue : Byte
  deriving DecidableEq, Repr

/-- The picture taken by `setImage`: `memptr()` read for `size()` bytes, `width()`, `height()`. -/
structure Image where
  width : Nat
  height : Nat
  pixels : List Byte
  deriving DecidableEq, Repr

/-- The fields of `hyperhdrnet::Reply` as its accessors return them: `error()` is a
null pointer when absent, `video()` and `registered()` return `-1` when absent. -/
structure Reply where
  error : Option String
  video : Int
  registered : Int
  deriving DecidableEq, Repr

/-- What one `CreateX` + `CreateRequest` + `Finish` sequence puts into the builder. -/
inductive Request
  | Register (origin : String) (priority : Int)
  | Color (data : Int) (duration : Int)
  | Image (data : List Byte) (width : Nat) (height : Nat)
  | Clear (priority : Int)
  deriving DecidableEq, Repr

/-- The parts of the build environment the client is compiled against.

* `charSigned`: whether plain `char` is signed on the target;
* `encode r old`: the bytes that creating and finishing request `r` puts in front of
  a builder buffer that already holds `old` (the builder grows towards the front and
  never rewrites what it holds);
* `VerifyReplyBuffer msg size`: the verifier run over `msg` with the announced size;
* `GetReply msg`: the reply table read from a verified buffer. -/
structure Lib where
  charSigned : Bool
  encode : Request → List Byte → List Byte
  VerifyReplyBuffer : List Byte → Nat → Bool
  GetReply : List Byte → Reply

/-- The socket as the client sees it: the state it reports, every byte accepted by
`write` so far (oldest first), and the `connectToHost` calls made on it. -/
structure Socket where
  state : SocketState
  written : List Byte
  connectAttempts : List (String × Nat)
  deriving DecidableEq, Repr

/-- The member variables of `FlatBufferConnection`. `_builder` lists the requests
finished in the shared builder since its last `Clear`, newest first; `readyRead`
tells whether the socket's `readyRead` signal is connected to `readData`. -/
structure Client where
  _socket : Socket
  _origin : String
  _priority : Int
  _prevSocketState : SocketState
  _registered : Bool
  _host : String
  _port : Nat
  _receiveBuffer : List Byte
  _builder : List Request
  readyRead : Bool
  deriving DecidableEq, Repr

/-! ## The builder -/

/-- `_builder.GetBufferPointer()`: the buffer holding the finished requests, the newest
in front of the older ones. -/
def bufferOf (lib : Lib) : List Request → List Byte
  | [] => []
  | r :: rs => lib.encode r (bufferOf lib rs) ++ bufferOf lib rs

/-- `_builder.GetSize()`, a `uoffset_t`. -/
def GetSize (lib : Lib) (b : List Request) : Nat :=
  (bufferOf lib b).length % 2 ^ 32

/-! ## Writing -/

/-- `_socket.write(data, len)`: `len` bytes starting at `data` are accepted. -/
def Socket.write (sock : Socket) (data : List Byte) (len : Nat) : Socket :=
  { sock with written := sock.written ++ data.take len }

/-- The array `header[]` built from a `uint32_t size` in `sendMessage` and `setRegister`. -/
def header (size : Nat) : List Byte :=
  [ Fin.ofNat ((size >>> 24) &&& 0xFF),
    Fin.ofNat ((size >>> 16) &&& 0xFF),
    Fin.ofNat ((size >>> 8) &&& 0xFF),
    Fin.ofNat (size &&& 0xFF) ]

/-- `FlatBufferConnection::setRegister`. -/
def setRegister (lib : Lib) (s : Client) (origin : String) (priority : Int) : Client :=
  let b := Request.Register origin priority :: s._builder
  let size := GetSize lib b
  let sock := (s._socket.write (header size) 4).write (bufferOf lib b) size
  { s with _socket := sock, _builder := [] }

/-- `FlatBufferConnection::sendMessage`. -/
def sendMessage (lib : Lib) (s : Client) (buffer : List Byte) (size : Nat) : Client :=
  let s1 :=
    if s._socket.state ≠ s._prevSocketState then
      { s with _registered := false, _prevSocketState := s._socket.state }
    else s
  if s1._socket.state ≠ SocketState.ConnectedState then s1
  else if !s1._registered then setRegister lib s1 s1._origin s1._priority
  else { s1 with _socket := (s1._socket.write (header size) 4).write buffer size }

/-- The argument `(color.red << 16) | (color.green << 8) | color.blue` of `CreateColor`. -/
def packRgb (color : ColorRgb) : Nat :=
  (color.red.val <<< 16) ||| (color.green.val <<< 8) ||| color.blue.val

/-- `FlatBufferConnection::setColor`. -/
def setColor (lib : Lib) (s : Client) (color : ColorRgb) (_priority : Int) (duration : Int) :
    Client :=
  let b := Request.Color (packRgb color) duration :: s._builder
  let s1 := sendMessage lib { s with _builder := b } (bufferOf lib b) (GetSize lib b)
  { s1 with _builder := [] }

/-- `FlatBufferConnection::setImage`. -/
def setImage (lib : Lib) (s : Client) (image : Image) : Client :=
  let b := Request.Image image.pixels image.width image.height :: s._builder
  let s1 := sendMessage lib { s with _builder := b } (bufferOf lib b) (GetSize lib b)
  { s1 with _builder := [] }

/-- `FlatBufferConnection::clear`. -/
def clear (lib : Lib) (s : Client) (priority : Int) : Client :=
  let b := Request.Clear priority :: s._builder
  let s1 := sendMessage lib { s with _builder := b } (bufferOf lib b) (GetSize lib b)
  { s1 with _builder := [] }

/-- `FlatBufferConnection::clearAll`. -/
def clearAll (lib : Lib) (s : Client) : Client :=
  clear lib s (-1)

/-! ## Reading -/

/-- The value of a `char` holding byte `b` after integer promotion. -/
def charValue (signed : Bool) (b : Byte) : Int :=
  if signed && decide (128 ≤ b.val) then (b.val : Int) - 256 else (b.val : Int)

/-- `(c << k) & mask` computed on 32-bit integers and read as `uint32_t`. -/
def shlMask (c : Int) (k : Nat) (mask : Nat) : Nat :=
  ((c * 2 ^ k) % 2 ^ 32).toNat &&& mask

/-- The `messageSize` computed from `_receiveBuffer[0..3]` in `readData`. -/
def messageSize (lib : Lib) (b0 b1 b2 b3 : Byte) : Nat :=
  shlMask (charValue lib.charSigned b0) 24 0xFF000000 |||
  shlMask (charValue lib.charSigned b1) 16 0x00FF0000 |||
  shlMask (charValue lib.charSigned b2) 8 0x0000FF00 |||
  shlMask (charValue lib.charSigned b3) 0 0x000000FF

/-- `QByteArray::remove(0, len)` with `len` the `uint32_t` value passed for the `int`
parameter: nothing is removed when the converted length is not positive. -/
def removeFront (buf : List Byte) (len : Nat) : List Byte :=
  if len = 0 ∨ 2 ^ 31 ≤ len then buf else buf.drop len

/-- `FlatBufferConnection::parseReply`: `Except.error` is the thrown `runtime_error`. -/
def parseReply (s : Client) (reply : Reply) : Except String (Bool × Client) :=
  match reply.error with
  | none =>
    let registered := reply.registered
    if registered = -1 ∨ registered ≠ s._priority then
      Except.ok (true, { s with _registered := false })
    else
      Except.ok (true, { s with _registered := true })
  | some what => Except.error what

/-- What one `readData` call leaves behind: the client, the `msg` values extracted by
the loop in order, and the exception that left the call, if any. -/
structure ReadResult where
  client : Client
  yielded : List (List Byte)
  raised : Option String
  deriving DecidableEq, Repr

/-- Put an extracted message in front of the messages of the remaining iterations. -/
def ReadResult.push (msg : List Byte) (r : ReadResult) : ReadResult :=
  { r with yielded := msg :: r.yielded }

/-- The `while` loop of `readData`; `fuel` bounds the number of times the loop
condition is evaluated and `none` means the bound was reached. -/
def readLoop (lib : Lib) : Nat → Client → Option ReadResult
  | 0, _ => none
  | fuel + 1, s =>
    match s._receiveBuffer with
    | b0 :: b1 :: b2 :: b3 :: rest =>
      let size := messageSize lib b0 b1 b2 b3
      if s._receiveBuffer.length % 2 ^ 32 < (size + 4) % 2 ^ 32 then
        some { client := s, yielded := [], raised := none }
      else
        let msg := rest.take size
        let s1 := { s with _receiveBuffer := removeFront s._receiveBuffer ((size + 4) % 2 ^ 32) }
        if lib.VerifyReplyBuffer msg size then
          match parseReply s1 (lib.GetReply msg) with
          | Except.ok (_, s2) => (readLoop lib fuel s2).map (ReadResult.push msg)
          | Except.error what => some { client := s1, yielded := [msg], raised := some what }
        else
          (readLoop lib fuel s1).map (ReadResult.push msg)
    | _ => some { client := s, yielded := [], raised := none }

/-- `FlatBufferConnection::readData`, with `chunk` the bytes `_socket.readAll()` returns. -/
def readData (lib : Lib) (fuel : Nat) (s : Client) (chunk : List Byte) : Option ReadResult :=
  readLoop lib fuel { s with _receiveBuffer := s._receiveBuffer ++ chunk }

/-! ## Frames and successive reads -/

/-- A frame as it travels: the header for the payload's length, then the payload. -/
def frameOf (payload : List Byte) : List Byte :=
  header payload.length ++ payload

/-- The byte stream made of the frames of the given payloads, in order. -/
def framesOf : List (List Byte) → List Byte
  | [] => []
  | p :: ps => frameOf p ++ framesOf ps

/-- The byte stream cut into the given chunks. -/
def joinChunks : List (List Byte) → List Byte
  | [] => []
  | c :: cs => c ++ joinChunks cs

/-- What a series of `readData` calls leaves behind: the client, every message the
calls extracted, and the exceptions that left them, all in order. -/
structure FeedResult where
  client : Client
  yielded : List (List Byte)
  raised : List String
  deriving DecidableEq, Repr

/-- One `readData` call per chunk, each on the client the previous call left. -/
def feed (lib : Lib) (fuel : Nat) : Client → List (List Byte) → Option FeedResult
  | s, [] => some { client := s, yielded := [], raised := [] }
  | s, c :: cs =>
    match readData lib fuel s c with
    | none => none
    | some r =>
      (feed lib fuel r.client cs).map fun f =>
        { f with yielded := r.yielded ++ f.yielded, raised := r.raised.toList ++ f.raised }

/-- The registration flag after the verified replies among `payloads` have been handled
in order, none of them carrying an error. -/
def registeredAfter (lib : Lib) (priority : Int) : Bool → List (List Byte) → Bool
  | reg, [] => reg
  | reg, p :: ps =>
    if lib.VerifyReplyBuffer p p.length then
      registeredAfter lib priority
        (decide (¬ ((lib.GetReply p).registered = -1 ∨ (lib.GetReply p).registered ≠ priority))) ps
    else registeredAfter lib priority reg ps

/-- None of the payloads that pass the verifier carries an error. -/
def NoError (lib : Lib) (ps : List (List Byte)) : Prop :=
  ∀ p ∈ ps, lib.VerifyReplyBuffer p p.length = true → (lib.GetReply p).error = none

/-- The buffer ends before the first of the listed frames is complete. -/
def Stuck (buf : List Byte) (ps : List (List Byte)) : Prop :=
  ∀ q qs, ps = q :: qs → buf.length < 4 + q.length

/-- The bytes `_builder.GetBufferPointer()` and `_builder.GetSize()` describe. -/
def finished (lib : Lib) (b : List Request) : List Byte :=
  (bufferOf lib b).take (GetSize lib b)

/-! ## Construction and reconnection -/

/-- `_socket.connectToHost(host, port)`: the attempt is recorded; the state changes
that follow are reported by the transport. -/
def Socket.connectToHost (sock : Socket) (host : String) (port : Nat) : Socket :=
  { sock with connectAttempts := sock.connectAttempts ++ [(host, port)] }

/-- `FlatBufferConnection::connectToHost`, also the slot of the 5000 ms timer. -/
def connectToHost (s : Client) : Client :=
  if s._socket.state = SocketState.UnconnectedState then
    { s with _socket := s._socket.connectToHost s._host s._port }
  else s

/-- The pieces of a character list between the occurrences of `sep`, empty pieces kept. -/
def splitChars (sep : Char) : List Char → List (List Char)
  | [] => [[]]
  | c :: cs =>
    if c = sep then [] :: splitChars sep cs
    else
      match splitChars sep cs with
      | [] => [[c]]
      | p :: ps => (c :: p) :: ps

/-- `address.split(":")` of `QString`, which keeps empty parts. -/
def split (address : String) : List String :=
  (splitChars ':' address.data).map String.mk

/-- The constructor `FlatBufferConnection::FlatBufferConnection`: `Except.error` is the
thrown `runtime_error`. `toUShort` is `QString::toUShort`, `none` when it reports
`ok = false`, a 16-bit value otherwise. The timer started at the end is the source of
the `timeout` events. -/
def FlatBufferConnection (toUShort : String → Option (Fin 65536)) (origin : String)
    (address : String) (priority : Int) (skipReply : Bool) : Except String Client :=
  match split address with
  | [host, portPart] =>
    match toUShort portPart with
    | none =>
      Except.error ("FLATBUFCONNECTION ERROR: Unable to parse the port (" ++ portPart ++ ")")
    | some port =>
      Except.ok (connectToHost
        { _socket := { state := SocketState.UnconnectedState, written := [], connectAttempts := [] }
          _origin := origin
          _priority := priority
          _prevSocketState := SocketState.UnconnectedState
          _registered := false
          _host := host
          _port := port.val
          _receiveBuffer := []
          _builder := []
          readyRead := !skipReply })
  | _ => Except.error ("FLATBUFCONNECTION ERROR: Unable to parse address (" ++ address ++ ")")

/-! ## The client as a transition system -/

/-- `FlatBufferConnection::setSkipReply`. -/
def setSkipReply (s : Client) (skip : Bool) : Client :=
  if skip then { s with readyRead := false } else { s with readyRead := true }

/-- What can happen to a client: the transport reports a new state, bytes arrive,
one of the public calls is made, or the reconnect timer fires. -/
inductive Event
  | stateChanged (st : SocketState)
  | received (chunk : List Byte)
  | setColor (color : ColorRgb) (priority : Int) (duration : Int)
  | setImage (image : Image)
  | clear (priority : Int)
  | clearAll
  | setRegister (origin : String) (priority : Int)
  | setSkipReply (skip : Bool)
  | timeout
  deriving DecidableEq

/-- One event handled to completion. Arriving bytes reach `readData` only while
`readyRead` is connected; an exception leaving `readData` keeps the client as the
call left it. -/
def step (lib : Lib) (fuel : Nat) (s : Client) : Event → Option Client
  | Event.stateChanged st => some { s with _socket := { s._socket with state := st } }
  | Event.received chunk =>
    if s.readyRead then (readData lib fuel s chunk).map fun r => r.client else some s
  | Event.setColor color priority duration => some (setColor lib s color priority duration)
  | Event.setImage image => some (setImage lib s image)
  | Event.clear priority => some (clear lib s priority)
  | Event.clearAll => some (clearAll lib s)
  | Event.setRegister origin priority => some (setRegister lib s origin priority)
  | Event.setSkipReply skip => some (setSkipReply s skip)
  | Event.timeout => some (connectToHost s)

/-- The events handled one after the other. -/
def run (lib : Lib) (fuel : Nat) : Client → List Event → Option Client
  | s, [] => some s
  | s, e :: es =>
    match step lib fuel s e with
    | none => none
    | some s1 => run lib fuel s1 es

/-- The client after the socket has accepted `bytes` more. -/
def Client.wrote (s : Client) (bytes : List Byte) : Client :=
  { s with _socket := { s._socket with written := s._socket.written ++ bytes } }

/-- The three public calls that go through `sendMessage` with a payload of their own. -/
inductive SendCall
  | ofColor (color : ColorRgb) (priority : Int) (duration : Int)
  | ofImage (image : Image)
  | ofClear (priority : Int)

/-- The request a call finishes in the builder before it reaches `sendMessage`. -/
def SendCall.request : SendCall → Request
  | SendCall.ofColor color _ duration => Request.Color (packRgb color) duration
  | SendCall.ofImage image => Request.Image image.pixels image.width image.height
  | SendCall.ofClear priority => Request.Clear priority

/-- The call made on a client. -/
def SendCall.perform (lib : Lib) (s : Client) : SendCall → Client
  | SendCall.ofColor color priority duration => setColor lib s color priority duration
  | SendCall.ofImage image => setImage lib s image
  | SendCall.ofClear priority => clear lib s priority

/-! ## A concrete environment for evaluation -/

/-- A small stand-in for the request encoder: a tag byte and the low bytes of the fields. -/
def sampleEncode : Request → List Byte → List Byte
  | Request.Register origin priority, _ => [1, Fin.ofNat origin.length, Fin.ofNat priority.toNat]
  | Request.Color data duration, _ =>
    [2, Fin.ofNat (data.toNat / 65536), Fin.ofNat (data.toNat / 256), Fin.ofNat data.toNat,
      Fin.ofNat duration.toNat]
  | Request.Image data width height, _ => 3 :: Fin.ofNat width :: Fin.ofNat height :: data
  | Request.Clear priority, _ => [4, Fin.ofNat priority.toNat]

/-- A small stand-in for the reply decoder: a two-byte reply, the first byte non-zero
for an error, the second the `registered` value with 255 for an absent one. -/
def sampleGetReply : List Byte → Reply
  | [t, r] =>
    { error := if t.val = 0 then none else some "error",
      video := -1,
      registered := if r.val = 255 then -1 else (r.val : Int) }
  | _ => { error := none, video := -1, registered := -1 }

/-- The stand-in environment: signed `char`, the two stand-in codecs, and a verifier
accepting exactly the two-byte replies. -/
def sampleLib : Lib where
  charSigned := true
  encode := sampleEncode
  VerifyReplyBuffer := fun msg size => decide (msg.length = 2 ∧ size = 2)
  GetReply := sampleGetReply

/-- The value of a string of decimal digits, `none` for any other character. -/
def digitsValue : List Char → Nat → Option Nat
  | [], acc => some acc
  | c :: cs, acc =>
    if '0' ≤ c ∧ c ≤ '9' then digitsValue cs (acc * 10 + (c.toNat - '0'.toNat)) else none

/-- A stand-in for `QString::toUShort`: a non-empty string of decimal digits whose value
fits 16 bits. -/
def sampleToUShort (part : String) : Option (Fin 65536) :=
  match part.data with
  | [] => none
  | cs =>
    match digitsValue cs 0 with
    | none => none
    | some v => if h : v < 65536 then some ⟨v, h⟩ else none

/-- A connected and registered client of priority 1 whose previous send saw the
connection up. -/
def sampleClient : Client where
  _socket := { state := SocketState.ConnectedState, written := [], connectAttempts := [] }
  _origin := "grabber"
  _priority := 1
  _prevSocketState := SocketState.ConnectedState
  _registered := true
  _host := "127.0.0.1"
  _port := 19400
  _receiveBuffer := []
  _builder := []
  readyRead := true

/-! ## The shutdown animation

`libsrc/effectengine/Animation_SystemShutdown.cpp`. The painter and the base class are
seen through the calls `Play` makes on them. The canvas size `SYSTEMSHUTDOWN_HEIGHT`
comes from a header and is a parameter. `yIndex` is an `int`: its decrement wraps
around modulo `2^32`, as the compiled code does, which first happens after more than
`2^30` calls. The `speed` member is only read by `Init` and is left out. -/

/-- The value an `int` holds after an operation whose exact result is `x`. -/
def wrapInt32 (x : Int) : Int :=
  (x + 2147483648) % 4294967296 - 2147483648

/-- `Point3d`, a colour as `Play` hands it to the painter. -/
structure Point3d where
  x : Int
  y : Int
  z : Int
  deriving DecidableEq, Repr

/-- The calls `Play` makes: `setFill`, `setLine` with its row, `SetSleepTime` with the
milliseconds, and `setStopMe`. -/
inductive Effect
  | setFill (rgb : Point3d)
  | setLine (y : Int) (rgb : Point3d)
  | SetSleepTime (ms : Int)
  | setStopMe (stop : Bool)
  deriving DecidableEq, Repr

/-- The members of `Animation_SystemShutdown` that `Play` reads or writes. -/
structure Animation_SystemShutdown where
  alarm_color : Point3d
  post_color : Point3d
  shutdown_enabled : Bool
  initial_blink : Bool
  set_post_color : Bool
  initial_blink_index : Int
  yIndex : Int
  deriving DecidableEq, Repr

/-- The constructor `Animation_SystemShutdown::Animation_SystemShutdown`. -/
def Animation_SystemShutdown.construct (SYSTEMSHUTDOWN_HEIGHT : Nat) :
    Animation_SystemShutdown where
  alarm_color := { x := 255, y := 0, z := 0 }
  post_color := { x := 255, y := 174, z := 11 }
  shutdown_enabled := false
  initial_blink := true
  set_post_color := true
  initial_blink_index := 0
  yIndex := SYSTEMSHUTDOWN_HEIGHT

/-- `Animation_SystemShutdown::Play`: the value returned, the members afterwards, and the
calls made, in order. -/
def Animation_SystemShutdown.Play (a : Animation_SystemShutdown) :
    Bool × Animation_SystemShutdown × List Effect :=
  let ret := true
  if a.initial_blink then
    if a.initial_blink_index < 6 then
      let a1 := { a with initial_blink_index := a.initial_blink_index + 1 }
      if Int.tmod a.initial_blink_index 2 ≠ 0 then
        (ret, a1, [Effect.setFill a.alarm_color])
      else
        (ret, a1, [Effect.setFill { x := 0, y := 0, z := 0 }])
    else
      (ret, { a with initial_blink := false }, [Effect.setFill { x := 0, y := 0, z := 0 }])
  else
    let a1 := { a with yIndex := wrapInt32 (a.yIndex - 1) }
    if a.yIndex ≥ 0 then
      (ret, a1, [Effect.setLine a1.yIndex a1.alarm_color])
    else
      let a2 := { a1 with yIndex := wrapInt32 (a1.yIndex - 1) }
      if a1.yIndex = -1 then
        (ret, a2, [Effect.SetSleepTime 1000])
      else if a2.set_post_color then
        (ret, { a2 with set_post_color := false },
          [Effect.setFill a2.post_color, Effect.SetSleepTime 2000])
      else
        (ret, a2, [Effect.setStopMe true])

/-- The animation after `n` calls of `Play` on the constructed object. -/
def played (H : Nat) : Nat → Animation_SystemShutdown
  | 0 => Animation_SystemShutdown.construct H
  | n + 1 => (played H n).Play.2.1

/-- Call number `n + 1` of `Play` on the constructed object: what it returns and the
calls it makes. -/
def playCall (H : Nat) (n : Nat) : Bool × List Effect :=
  ((played H n).Play.1, (played H n).Play.2.2)

/-- The rows handed to `setLine` among the given calls. -/
def rowsOf : List Effect → List Int
  | [] => []
  | Effect.setLine y _ :: es => y :: rowsOf es
  | _ :: es => rowsOf es

/-- The rows handed to `setLine` during the first `n` calls of `Play`, in order. -/
def drawnRows (H : Nat) : Nat → List Int
  | 0 => []
  | n + 1 => drawnRows H n ++ rowsOf (playCall H n).2

/-- The members after `n` calls, written out: the blink phase, the sweep, the tail in
which `yIndex` goes down by two a call, and the calls after it has wrapped around. -/
def playedForm (H : Nat) (n : Nat) : Animation_SystemShutdown :=
  if n ≤ 6 then
    { Animation_SystemShutdown.construct H with initial_blink_index := n }
  else if n ≤ H + 8 then
    { Animation_SystemShutdown.construct H with
      initial_blink := false, initial_blink_index := 6, yIndex := (H : Int) - ((n : Int) - 7) }
  else if n < H + 8 + 1073741824 then
    { Animation_SystemShutdown.construct H with
      initial_blink := false, initial_blink_index := 6, set_post_color := false,
      yIndex := -1 - 2 * ((n : Int) - ((H : Int) + 8)) }
  else
    { Animation_SystemShutdown.construct H with
      initial_blink := false, initial_blink_index := 6, set_post_color := false,
      yIndex := 2147483647 - ((n : Int) - ((H : Int) + 8 + 1073741824)) }

/-! ## Header arithmetic -/

set_option maxRecDepth 100000 in
theorem shlMask_24 (sg : Bool) (b : Byte) :
    shlMask (charValue sg b) 24 0xFF000000 = b.val * 2 ^ 24 := by
  revert b; cases sg <;> decide

set_option maxRecDepth 100000 in
theorem shlMask_16 (sg : Bool) (b : Byte) :
    shlMask (charValue sg b) 16 0x00FF0000 = b.val * 2 ^ 16 := by
  revert b; cases sg <;> decide

set_option maxRecDepth 100000 in
theorem shlMask_8 (sg : Bool) (b : Byte) :
    shlMask (charValue sg b) 8 0x0000FF00 = b.val * 2 ^ 8 := by
  revert b; cases sg <;> decide

set_option maxRecDepth 100000 in
theorem shlMask_0 (sg : Bool) (b : Byte) :
    shlMask (charValue sg b) 0 0x000000FF = b.val := by
  revert b; cases sg <;> decide

/-- Four byte-sized fields at bit offsets 24, 16, 8 and 0 do not overlap. -/
theorem or_bytes (a b c d : Nat) (hb : b < 256) (hc : c < 256) (hd : d < 256) :
    a * 2 ^ 24 ||| b * 2 ^ 16 ||| c * 2 ^ 8 ||| d = a * 2 ^ 24 + b * 2 ^ 16 + c * 2 ^ 8 + d := by
  have h1 : a * 2 ^ 24 ||| b * 2 ^ 16 = a * 2 ^ 24 + b * 2 ^ 16 := by
    have h := Nat.mul_add_lt_is_or (i := 24) (b := b * 2 ^ 16) (by omega) a
    rw [Nat.mul_comm (2 ^ 24) a] at h
    exact h.symm
  have h2 : (a * 2 ^ 24 + b * 2 ^ 16) ||| c * 2 ^ 8 = a * 2 ^ 24 + b * 2 ^ 16 + c * 2 ^ 8 := by
    have h := Nat.mul_add_lt_is_or (i := 16) (b := c * 2 ^ 8) (by omega) (a * 2 ^ 8 + b)
    have e : 2 ^ 16 * (a * 2 ^ 8 + b) = a * 2 ^ 24 + b * 2 ^ 16 := by omega
    rw [e] at h
    exact h.symm
  have h3 : (a * 2 ^ 24 + b * 2 ^ 16 + c * 2 ^ 8) ||| d
      = a * 2 ^ 24 + b * 2 ^ 16 + c * 2 ^ 8 + d := by
    have h := Nat.mul_add_lt_is_or (i := 8) (b := d) (by omega) (a * 2 ^ 16 + b * 2 ^ 8 + c)
    have e : 2 ^ 8 * (a * 2 ^ 16 + b * 2 ^ 8 + c) = a * 2 ^ 24 + b * 2 ^ 16 + c * 2 ^ 8 := by
      omega
    rw [e] at h
    exact h.symm
  rw [h1, h2, h3]

/-- The length `readData` computes, as a number, for either signedness of `char`. -/
theorem messageSize_eq (lib : Lib) (b0 b1 b2 b3 : Byte) :
    messageSize lib b0 b1 b2 b3
      = b0.val * 2 ^ 24 + b1.val * 2 ^ 16 + b2.val * 2 ^ 8 + b3.val := by
  unfold messageSize
  rw [shlMask_24, shlMask_16, shlMask_8, shlMask_0]
  exact or_bytes _ _ _ _ b1.isLt b2.isLt b3.isLt

/-- The header bytes as numbers. -/
theorem header_val (n : Nat) :
    (header n).map Fin.val = [n / 2 ^ 24 % 256, n / 2 ^ 16 % 256, n / 2 ^ 8 % 256, n % 256] := by
  have e : (0xFF : Nat) = 2 ^ 8 - 1 := by norm_num
  simp only [header, List.map, e, Nat.and_pow_two_sub_one_eq_mod, Nat.shiftRight_eq_div_pow,
    Fin.ofNat]
  simp [Nat.mod_mod]

/-- The four bytes of the header written for `n` read back as `n`. -/
theorem header_decode (lib : Lib) (n : Nat) (hn : n < 2 ^ 32) :
    ∃ h0 h1 h2 h3 : Byte, header n = [h0, h1, h2, h3] ∧ messageSize lib h0 h1 h2 h3 = n := by
  refine ⟨_, _, _, _, rfl, ?_⟩
  rw [messageSize_eq]
  have e : (0xFF : Nat) = 2 ^ 8 - 1 := by norm_num
  simp only [e, Nat.and_pow_two_sub_one_eq_mod, Nat.shiftRight_eq_div_pow, Fin.ofNat,
    Nat.mod_mod]
  omega

theorem header_length (n : Nat) : (header n).length = 4 := rfl

theorem frameOf_length (p : List Byte) : (frameOf p).length = 4 + p.length := by
  simp [frameOf, header_length]

/-! ## One pass of the framing loop -/

/-- A complete frame at the front of the buffer is taken out and handed to the verifier. -/
theorem readLoop_frame (lib : Lib) (fuel : Nat) (s : Client) (p rest : List Byte)
    (hbuf : s._receiveBuffer = frameOf p ++ rest) (hlen : s._receiveBuffer.length < 2^31) :
    readLoop lib (fuel + 1) s =
      if lib.VerifyReplyBuffer p p.length then
        match parseReply { s with _receiveBuffer := rest } (lib.GetReply p) with
        | Except.ok (_, s2) => (readLoop lib fuel s2).map (ReadResult.push p)
        | Except.error what =>
          some { client := { s with _receiveBuffer := rest }, yielded := [p], raised := some what }
      else (readLoop lib fuel { s with _receiveBuffer := rest }).map (ReadResult.push p) := by
  have hl : s._receiveBuffer.length = 4 + p.length + rest.length := by
    rw [hbuf]; simp [frameOf, header_length]; omega
  obtain ⟨h0, h1, h2, h3, hh, hm⟩ := header_decode lib p.length (by omega)
  have hb : s._receiveBuffer = h0 :: h1 :: h2 :: h3 :: (p ++ rest) := by
    rw [hbuf, frameOf, hh]; simp
  conv_lhs => unfold readLoop
  rw [hb]
  simp only [hm]
  have hl2 : (h0 :: h1 :: h2 :: h3 :: (p ++ rest)).length = 4 + p.length + rest.length := by
    rw [← hb]; exact hl
  have c1 : ¬ ((h0 :: h1 :: h2 :: h3 :: (p ++ rest)).length % 2^32 < (p.length + 4) % 2^32) := by
    rw [hl2]; omega
  rw [if_neg c1]
  have c2 : removeFront (h0 :: h1 :: h2 :: h3 :: (p ++ rest)) ((p.length + 4) % 2^32) = rest := by
    have : (p.length + 4) % 2^32 = p.length + 4 := by omega
    rw [this, removeFront, if_neg (by omega)]
    simp [List.drop_append]
  have c3 : (p ++ rest).take p.length = p := by simp
  simp only [c2, c3]

/-- Before the first frame is complete the loop leaves without touching the buffer. -/
theorem readLoop_stuck (lib : Lib) (fuel : Nat) (s : Client) (p x y : List Byte)
    (hpre : s._receiveBuffer ++ x = frameOf p ++ y)
    (hshort : s._receiveBuffer.length < 4 + p.length) (hp : p.length + 4 < 2 ^ 31) :
    readLoop lib (fuel + 1) s = some { client := s, yielded := [], raised := none } := by
  obtain ⟨h0, h1, h2, h3, hh, hm⟩ := header_decode lib p.length (by omega)
  conv_lhs => unfold readLoop
  rw [frameOf, hh] at hpre
  rcases hb : s._receiveBuffer with _ | ⟨b0, _ | ⟨b1, _ | ⟨b2, _ | ⟨b3, tl⟩⟩⟩⟩
  · rfl
  · rfl
  · rfl
  · rfl
  · rw [hb] at hpre hshort
    simp only [List.cons_append, List.cons.injEq] at hpre
    obtain ⟨e0, e1, e2, e3, -⟩ := hpre
    subst e0 e1 e2 e3
    simp only [hm]
    rw [if_pos]
    have : (b0 :: b1 :: b2 :: b3 :: tl).length % 2 ^ 32 = (b0 :: b1 :: b2 :: b3 :: tl).length := by
      apply Nat.mod_eq_of_lt; omega
    rw [this]
    omega

/-- What `parseReply` does with a reply that has no error. -/
theorem parseReply_ok (s : Client) (reply : Reply) (h : reply.error = none) :
    parseReply s reply = Except.ok (true, { s with _registered := decide (¬ (reply.registered = -1 ∨ reply.registered ≠ s._priority)) }) := by
  unfold parseReply
  rw [h]
  by_cases c : reply.registered = -1 ∨ reply.registered ≠ s._priority
  · simp [c]
  · simp only [c, if_false]; simp

theorem framesOf_append (a b : List (List Byte)) : framesOf (a ++ b) = framesOf a ++ framesOf b := by
  induction a with
  | nil => rfl
  | cons p ps ih => simp [framesOf, ih]

theorem registeredAfter_append (lib : Lib) (pr : Int) (reg : Bool) (a b : List (List Byte)) :
    registeredAfter lib pr reg (a ++ b) = registeredAfter lib pr (registeredAfter lib pr reg a) b := by
  induction a generalizing reg with
  | nil => rfl
  | cons p ps ih =>
    simp only [List.cons_append, registeredAfter]
    split <;> exact ih _

/-- One pass over a buffer that is the beginning of a stream of frames: the complete
frames are taken out in order and the incomplete rest stays. -/
theorem readLoop_prefix (lib : Lib) (ps : List (List Byte)) :
    ∀ (fuel : Nat) (s : Client) (rest : List Byte),
      s._receiveBuffer ++ rest = framesOf ps → (framesOf ps).length < 2 ^ 31 →
      NoError lib ps → ps.length < fuel →
      ∃ ps1 ps2 part, ps = ps1 ++ ps2 ∧ part ++ rest = framesOf ps2 ∧ Stuck part ps2 ∧
        readLoop lib fuel s = some
          { client := { s with _receiveBuffer := part,
                               _registered := registeredAfter lib s._priority s._registered ps1 },
            yielded := ps1, raised := none } := by
  induction ps with
  | nil =>
    intro fuel s rest hpre _ _ hfuel
    have hb : s._receiveBuffer = [] := by
      simp only [framesOf, List.append_eq_nil] at hpre; exact hpre.1
    refine ⟨[], [], [], rfl, ?_, ?_, ?_⟩
    · simp only [framesOf, List.append_eq_nil] at hpre; simp [hpre.2, framesOf]
    · intro q qs h; cases h
    · obtain ⟨f, rfl⟩ : ∃ f, fuel = f + 1 := ⟨fuel - 1, by omega⟩
      unfold readLoop
      rw [hb]
      simp only [registeredAfter]
      congr 2
      cases s; simp_all
  | cons p ps ih =>
    intro fuel s rest hpre hlen hok hfuel
    obtain ⟨f, rfl⟩ : ∃ f, fuel = f + 1 := ⟨fuel - 1, by simp at hfuel; omega⟩
    have hfl : (framesOf (p :: ps)).length = 4 + p.length + (framesOf ps).length := by
      simp [framesOf, frameOf_length]
    by_cases hshort : s._receiveBuffer.length < 4 + p.length
    · refine ⟨[], p :: ps, s._receiveBuffer, rfl, hpre, ?_, ?_⟩
      · intro q qs h; cases h; exact hshort
      · rw [readLoop_stuck lib f s p rest (framesOf ps) hpre hshort (by omega)]
        simp only [registeredAfter]
    · -- the first frame is complete
      have hsplit : ∃ b', s._receiveBuffer = frameOf p ++ b' ∧ b' ++ rest = framesOf ps := by
        have h := hpre
        simp only [framesOf] at h
        rw [List.append_eq_append_iff] at h
        rcases h with ⟨a', h1, h2⟩ | ⟨c', h1, h2⟩
        · -- frameOf p = buffer ++ a'
          have : (frameOf p).length = s._receiveBuffer.length + a'.length := by
            rw [h1]; simp
          rw [frameOf_length] at this
          have ha : a' = [] := by
            apply List.eq_nil_of_length_eq_zero; omega
          subst ha
          refine ⟨[], by simpa using h1.symm, by simpa using h2⟩
        · exact ⟨c', h1, h2.symm⟩
      obtain ⟨b', hb, hrest⟩ := hsplit
      have hlenb : s._receiveBuffer.length < 2 ^ 31 := by
        have : (s._receiveBuffer ++ rest).length = (framesOf (p :: ps)).length := by rw [hpre]
        simp at this; omega
      have hokps : NoError lib ps := fun q hq => hok q (List.mem_cons_of_mem _ hq)
      have hlenps : (framesOf ps).length < 2 ^ 31 := by omega
      have hfuel' : ps.length < f := by simp at hfuel; omega
      by_cases hv : lib.VerifyReplyBuffer p p.length = true
      · obtain ⟨ps1, ps2, part, e, hp2, hst, hr⟩ :=
          ih f { s with _receiveBuffer := b', _registered := decide (¬ ((lib.GetReply p).registered = -1 ∨ (lib.GetReply p).registered ≠ s._priority)) }
            rest hrest hlenps hokps hfuel'
        refine ⟨p :: ps1, ps2, part, by simp [e], hp2, hst, ?_⟩
        rw [readLoop_frame lib f s p b' hb hlenb, if_pos hv,
          parseReply_ok _ _ (hok p (List.mem_cons_self _ _) hv)]
        simp only
        rw [hr]
        simp [ReadResult.push, registeredAfter, hv]
      · obtain ⟨ps1, ps2, part, e, hp2, hst, hr⟩ :=
          ih f { s with _receiveBuffer := b' } rest hrest hlenps hokps hfuel'
        refine ⟨p :: ps1, ps2, part, by simp [e], hp2, hst, ?_⟩
        rw [readLoop_frame lib f s p b' hb hlenb, if_neg hv, hr]
        simp [ReadResult.push, registeredAfter, hv]

/-- Successive passes over any cutting of a stream of frames take out all of them. -/
theorem feed_frames (lib : Lib) (fuel : Nat) (chunks : List (List Byte)) :
    ∀ (ps : List (List Byte)) (s : Client),
      s._receiveBuffer ++ joinChunks chunks = framesOf ps → Stuck s._receiveBuffer ps →
      (framesOf ps).length < 2 ^ 31 → NoError lib ps → ps.length < fuel →
      feed lib fuel s chunks = some
        { client := { s with _receiveBuffer := [],
                             _registered := registeredAfter lib s._priority s._registered ps },
          yielded := ps, raised := [] } := by
  induction chunks with
  | nil =>
    intro ps s hpre hst _ _ _
    simp only [joinChunks, List.append_nil] at hpre
    have hps : ps = [] := by
      cases ps with
      | nil => rfl
      | cons q qs =>
        have h1 := hst q qs rfl
        have h2 : s._receiveBuffer.length = (framesOf (q :: qs)).length := by rw [hpre]
        simp [framesOf, frameOf_length] at h2
        omega
    subst hps
    simp only [framesOf] at hpre
    simp only [feed, registeredAfter]
    congr 2
    cases s; simp_all
  | cons c cs ih =>
    intro ps s hpre hst hlen hok hfuel
    simp only [joinChunks] at hpre
    obtain ⟨ps1, ps2, part, e, hp2, hst2, hr⟩ :=
      readLoop_prefix lib ps fuel { s with _receiveBuffer := s._receiveBuffer ++ c } (joinChunks cs)
        (by simpa using hpre) hlen hok hfuel
    subst e
    have hlen2 : (framesOf ps2).length < 2 ^ 31 := by
      rw [framesOf_append] at hlen; simp at hlen; omega
    have hok2 : NoError lib ps2 := fun q hq => hok q (List.mem_append_right _ hq)
    have hfuel2 : ps2.length < fuel := by simp at hfuel; omega
    have := ih ps2 { s with _receiveBuffer := part, _registered := registeredAfter lib s._priority s._registered ps1 }
      hp2 hst2 hlen2 hok2 hfuel2
    simp only [feed, readData, hr, this]
    simp [registeredAfter_append]

/-- A call of `parseReply` that returns has changed nothing but the registration flag. -/
theorem parseReply_returns (s s2 : Client) (reply : Reply) (ok : Bool)
    (h : parseReply s reply = Except.ok (ok, s2)) :
    reply.error = none ∧ ok = true ∧
      s2 = { s with _registered := decide (¬ (reply.registered = -1 ∨ reply.registered ≠ s._priority)) } := by
  cases he : reply.error with
  | none =>
    rw [parseReply_ok s reply he] at h
    cases h
    exact ⟨rfl, rfl, rfl⟩
  | some e =>
    unfold parseReply at h
    rw [he] at h
    cases h

/-- A stream of complete frames is always worked off: every pass over it ends. -/
theorem readLoop_frames_total (lib : Lib) (ps : List (List Byte)) :
    ∀ (fuel : Nat) (s : Client), s._receiveBuffer = framesOf ps →
      (framesOf ps).length < 2 ^ 31 → ps.length < fuel →
      ∃ r, readLoop lib fuel s = some r := by
  induction ps with
  | nil =>
    intro fuel s hb _ hfuel
    obtain ⟨f, rfl⟩ : ∃ f, fuel = f + 1 := ⟨fuel - 1, by omega⟩
    refine ⟨{ client := s, yielded := [], raised := none }, ?_⟩
    unfold readLoop
    rw [hb]
    rfl
  | cons p ps ih =>
    intro fuel s hb hlen hfuel
    obtain ⟨f, rfl⟩ : ∃ f, fuel = f + 1 := ⟨fuel - 1, by simp at hfuel; omega⟩
    have hfl : (framesOf (p :: ps)).length = 4 + p.length + (framesOf ps).length := by
      simp [framesOf, frameOf_length]
    have hfuel' : ps.length < f := by simp at hfuel; omega
    rw [readLoop_frame lib f s p (framesOf ps) hb (by rw [hb]; exact hlen)]
    by_cases hv : lib.VerifyReplyBuffer p p.length = true
    · rw [if_pos hv]
      cases hp : parseReply { s with _receiveBuffer := framesOf ps } (lib.GetReply p) with
      | error what => exact ⟨_, rfl⟩
      | ok v =>
        obtain ⟨ok, s2⟩ := v
        have hs2 : s2._receiveBuffer = framesOf ps := by
          rw [(parseReply_returns _ _ _ _ hp).2.2]
        obtain ⟨r, hr⟩ := ih f s2 hs2 (by omega) hfuel'
        exact ⟨r.push p, by simp [hr]⟩
    · rw [if_neg hv]
      obtain ⟨r, hr⟩ := ih f { s with _receiveBuffer := framesOf ps } rfl (by omega) hfuel'
      exact ⟨r.push p, by simp [hr]⟩

/-- `parseReply` throws exactly for the replies that carry an error. -/
theorem parseReply_error_iff (c : Client) (reply : Reply) :
    (∃ w, parseReply c reply = Except.error w) ↔ reply.error ≠ none := by
  unfold parseReply
  cases h : reply.error with
  | none =>
    simp only [ne_eq, not_true_eq_false, iff_false]
    rintro ⟨w, hw⟩
    split at hw <;> cases hw
  | some e => simp

/-- A pass over an empty buffer ends at once. -/
theorem readLoop_empty (lib : Lib) (fuel : Nat) (c : Client) (hc : c._receiveBuffer = []) :
    readLoop lib (fuel + 1) c = some { client := c, yielded := [], raised := none } := by
  unfold readLoop
  rw [hc]

/-- A single frame that is a verified reply with an error, read into an empty buffer. -/
theorem readData_error_frame (lib : Lib) (fuel : Nat) (s : Client) (p rest : List Byte)
    (what : String) (hempty : s._receiveBuffer = [])
    (hlen : (frameOf p ++ rest).length < 2 ^ 31)
    (hv : lib.VerifyReplyBuffer p p.length = true)
    (he : (lib.GetReply p).error = some what) :
    readData lib (fuel + 1) s (frameOf p ++ rest) =
      some { client := { s with _receiveBuffer := rest }, yielded := [p],
             raised := some what } := by
  have hb : s._receiveBuffer ++ (frameOf p ++ rest) = frameOf p ++ rest := by
    rw [hempty, List.nil_append]
  have hl : (s._receiveBuffer ++ (frameOf p ++ rest)).length < 2 ^ 31 := by
    rw [hb]; exact hlen
  unfold readData
  rw [readLoop_frame lib fuel _ p rest hb hl, if_pos hv]
  simp only [parseReply, he]

/-- A single frame read into an empty buffer is extracted and the buffer is empty again. -/
theorem readData_one_frame (lib : Lib) (fuel : Nat) (s : Client) (q : List Byte)
    (hempty : s._receiveBuffer = []) (hl : (frameOf q).length < 2 ^ 31) :
    ∃ r, readData lib (fuel + 2) s (frameOf q) = some r ∧
      r.yielded = [q] ∧ r.client._receiveBuffer = [] := by
  have hb : s._receiveBuffer ++ frameOf q = frameOf q ++ [] := by
    rw [hempty, List.nil_append, List.append_nil]
  have hl2 : (s._receiveBuffer ++ frameOf q).length < 2 ^ 31 := by
    rw [hb, List.append_nil]; exact hl
  unfold readData
  rw [readLoop_frame lib (fuel + 1) _ q [] hb hl2]
  by_cases hq : lib.VerifyReplyBuffer q q.length = true
  · rw [if_pos hq]
    cases hp : parseReply { s with _receiveBuffer := [] } (lib.GetReply q) with
    | error w => exact ⟨_, rfl, rfl, rfl⟩
    | ok v =>
      obtain ⟨ok, s2⟩ := v
      have hs2 : s2._receiveBuffer = [] := by
        rw [(parseReply_returns _ _ _ _ hp).2.2]
      refine ⟨{ client := s2, yielded := [q], raised := none }, ?_, rfl, hs2⟩
      show Option.map (ReadResult.push q) (readLoop lib (fuel + 1) s2) = _
      rw [readLoop_empty lib fuel s2 hs2]
      rfl
  · rw [if_neg hq, readLoop_empty lib fuel _ rfl]
    exact ⟨_, rfl, rfl, rfl⟩

/-- On any environment, a verified reply with an error in front of a second frame tells
the single call from the frame-by-frame calls: the single call extracts one payload and
keeps the second frame buffered, the two calls extract both and empty the buffer. -/
theorem feed_split_after_error (lib : Lib) (fuel : Nat) (s : Client) (p q : List Byte)
    (what : String) (hempty : s._receiveBuffer = [])
    (hlen : (frameOf p ++ frameOf q).length < 2 ^ 31)
    (hv : lib.VerifyReplyBuffer p p.length = true)
    (he : (lib.GetReply p).error = some what) :
    (∃ r, feed lib (fuel + 2) s [frameOf p ++ frameOf q] = some r ∧ r.yielded = [p] ∧
      r.client._receiveBuffer = frameOf q) ∧
    (∃ r, feed lib (fuel + 2) s [frameOf p, frameOf q] = some r ∧ r.yielded = [p, q] ∧
      r.client._receiveBuffer = []) := by
  have hlp : (frameOf p ++ []).length < 2 ^ 31 := by
    rw [List.length_append] at hlen
    rw [List.append_nil]
    omega
  have hlq : (frameOf q).length < 2 ^ 31 := by
    rw [List.length_append] at hlen
    omega
  have h1 := readData_error_frame lib (fuel + 1) s p (frameOf q) what hempty hlen hv he
  have h2 := readData_error_frame lib (fuel + 1) s p [] what hempty hlp hv he
  rw [List.append_nil] at h2
  obtain ⟨r, hr, hy, hb⟩ :=
    readData_one_frame lib fuel { s with _receiveBuffer := [] } q rfl hlq
  constructor
  · refine ⟨{ client := { s with _receiveBuffer := frameOf q }, yielded := [p],
              raised := [what] }, ?_, rfl, rfl⟩
    rw [feed, h1]
    rfl
  · refine ⟨{ client := r.client, yielded := p :: r.yielded, raised := what :: r.raised.toList },
      ?_, ?_, hb⟩
    · rw [feed, h2]
      show Option.map _ (feed lib (fuel + 2) { s with _receiveBuffer := [] } [frameOf q]) = _
      rw [feed, hr]
      simp [feed]
    · show p :: r.yielded = [p, q]
      rw [hy]

/-! ## The send path -/

/-- `GetSize` bytes are taken from the builder's buffer. -/
theorem finished_length (lib : Lib) (b : List Request) :
    (finished lib b).length = GetSize lib b := by
  unfold finished GetSize
  rw [List.length_take]
  exact Nat.min_eq_left (Nat.mod_le _ _)

/-- The header and the payload written for a finished builder make one frame. -/
theorem write_finished (lib : Lib) (sock : Socket) (b : List Request) :
    (sock.write (header (GetSize lib b)) 4).write (bufferOf lib b) (GetSize lib b) =
      { sock with written := sock.written ++ frameOf (finished lib b) } := by
  simp only [Socket.write, frameOf, finished_length]
  simp [finished, header, List.append_assoc]

/-- What `setRegister` leaves: one frame more on the socket and a cleared builder. -/
theorem setRegister_eq (lib : Lib) (s : Client) (origin : String) (priority : Int) :
    setRegister lib s origin priority =
      { s.wrote (frameOf (finished lib (Request.Register origin priority :: s._builder)))
          with _builder := [] } := by
  simp only [setRegister, write_finished, Client.wrote]

/-- The packed colour as a number. -/
theorem packRgb_eq (color : ColorRgb) :
    packRgb color = color.red.val * 65536 + color.green.val * 256 + color.blue.val := by
  unfold packRgb
  rw [Nat.shiftLeft_eq, Nat.shiftLeft_eq]
  have h := or_bytes 0 color.red.val color.green.val color.blue.val color.red.isLt
    color.green.isLt color.blue.isLt
  simp only [Nat.zero_mul, Nat.zero_add] at h
  have z : ∀ x : Nat, 0 ||| x = x := fun x => Nat.zero_or x
  rw [z] at h
  exact h

/-- A send call on a connected, unregistered client ends in `setRegister`. -/
theorem sendMessage_gated (lib : Lib) (s : Client) (buffer : List Byte) (size : Nat)
    (hc : s._socket.state = SocketState.ConnectedState) (hr : s._registered = false) :
    sendMessage lib s buffer size =
      { s.wrote (frameOf (finished lib (Request.Register s._origin s._priority :: s._builder)))
          with _prevSocketState := SocketState.ConnectedState, _builder := [] } := by
  obtain ⟨⟨st, wr, att⟩, origin, prio, prev, reg, host, port, rb, b, rr⟩ := s
  simp only at hc hr
  subst hc hr
  by_cases hp : SocketState.ConnectedState = prev
  · subst hp
    simp [sendMessage, setRegister_eq, Client.wrote]
  · simp [sendMessage, setRegister_eq, Client.wrote, hp]

/-- A send call on a connected and registered client whose previous send saw the
connection up writes the caller's bytes. -/
theorem sendMessage_registered (lib : Lib) (s : Client) (buffer : List Byte) (size : Nat)
    (hc : s._socket.state = SocketState.ConnectedState)
    (hp : s._prevSocketState = SocketState.ConnectedState) (hr : s._registered = true) :
    sendMessage lib s buffer size =
      { s with _socket := (s._socket.write (header size) 4).write buffer size } := by
  obtain ⟨⟨st, wr, att⟩, origin, prio, prev, reg, host, port, rb, b, rr⟩ := s
  simp only at hc hp hr
  subst hc hp hr
  simp [sendMessage]

/-- A send call on a client that is not connected only takes note of the socket state. -/
theorem sendMessage_unconnected (lib : Lib) (s : Client) (buffer : List Byte) (size : Nat)
    (hn : s._socket.state ≠ SocketState.ConnectedState) :
    sendMessage lib s buffer size =
      { s with _registered := decide (s._socket.state = s._prevSocketState) && s._registered,
               _prevSocketState := s._socket.state } := by
  obtain ⟨⟨st, wr, att⟩, origin, prio, prev, reg, host, port, rb, b, rr⟩ := s
  simp only at hn
  by_cases hp : st = prev
  · subst hp
    simp [sendMessage, hn]
  · simp [sendMessage, hn, hp]

/-- `setColor` on a connected and registered client whose previous send saw the
connection up puts one frame on the socket, the finished Color request. -/
theorem setColor_registered (lib : Lib) (s : Client) (color : ColorRgb) (priority duration : Int)
    (hc : s._socket.state = SocketState.ConnectedState)
    (hp : s._prevSocketState = SocketState.ConnectedState) (hr : s._registered = true) :
    setColor lib s color priority duration =
      { s.wrote (frameOf (finished lib (Request.Color (packRgb color) duration :: s._builder)))
          with _builder := [] } := by
  simp only [setColor]
  rw [sendMessage_registered lib
    { s with _builder := Request.Color (packRgb color) duration :: s._builder } _ _ hc hp hr]
  simp only [write_finished, Client.wrote]

/-! ## Construction, reconnection and skip mode -/

/-- Splitting gives one part more than there are separators. -/
theorem splitChars_length (sep : Char) (l : List Char) :
    (splitChars sep l).length = l.count sep + 1 := by
  induction l with
  | nil => rfl
  | cons c cs ih =>
    unfold splitChars
    by_cases h : c = sep
    · subst h
      simp [ih]
    · rw [if_neg h]
      have hne : (c == sep) = false := by simpa using h
      rw [List.count_cons, hne]
      cases hs : splitChars sep cs with
      | nil => rw [hs] at ih; simp at ih
      | cons p ps => rw [hs] at ih; simpa using ih

/-- A client constructed with `skipReply = true` starts unsubscribed and unregistered. -/
theorem constructed_skip (toUShort : String → Option (Fin 65536)) (origin address : String)
    (priority : Int) (s : Client)
    (h : FlatBufferConnection toUShort origin address priority true = Except.ok s) :
    s.readyRead = false ∧ s._registered = false := by
  unfold FlatBufferConnection at h
  split at h
  · split at h
    · cases h
    · cases h
      exact ⟨rfl, rfl⟩
  · cases h

/-- `setRegister` leaves the registration flag and the subscription alone. -/
theorem setRegister_registered (lib : Lib) (s : Client) (o : String) (p : Int) :
    (setRegister lib s o p)._registered = s._registered ∧
    (setRegister lib s o p).readyRead = s.readyRead := by
  rw [setRegister_eq]
  exact ⟨rfl, rfl⟩

/-- `sendMessage` never sets the registration flag and leaves the subscription alone. -/
theorem sendMessage_not_registering (lib : Lib) (s : Client) (buffer : List Byte) (size : Nat)
    (hr : s._registered = false) :
    (sendMessage lib s buffer size)._registered = false ∧
    (sendMessage lib s buffer size).readyRead = s.readyRead := by
  by_cases hc : s._socket.state = SocketState.ConnectedState
  · rw [sendMessage_gated lib s buffer size hc hr]
    exact ⟨hr, rfl⟩
  · rw [sendMessage_unconnected lib s buffer size hc]
    simp [hr]

/-- While replies are skipped no event registers the client. -/
theorem step_skip (lib : Lib) (fuel : Nat) (s : Client) (e : Event)
    (hskip : s.readyRead = false) (hreg : s._registered = false)
    (he : e ≠ Event.setSkipReply false) :
    ∃ s1, step lib fuel s e = some s1 ∧ s1.readyRead = false ∧ s1._registered = false := by
  cases e with
  | stateChanged st => exact ⟨_, rfl, hskip, hreg⟩
  | received chunk =>
    refine ⟨s, ?_, hskip, hreg⟩
    simp [step, hskip]
  | setColor color priority duration =>
    refine ⟨_, rfl, ?_, ?_⟩
    · show (sendMessage lib _ _ _).readyRead = false
      rw [(sendMessage_not_registering lib _ _ _ (by exact hreg)).2]; exact hskip
    · show (sendMessage lib _ _ _)._registered = false
      exact (sendMessage_not_registering lib _ _ _ (by exact hreg)).1
  | setImage image =>
    refine ⟨_, rfl, ?_, ?_⟩
    · show (sendMessage lib _ _ _).readyRead = false
      rw [(sendMessage_not_registering lib _ _ _ (by exact hreg)).2]; exact hskip
    · show (sendMessage lib _ _ _)._registered = false
      exact (sendMessage_not_registering lib _ _ _ (by exact hreg)).1
  | clear priority =>
    refine ⟨_, rfl, ?_, ?_⟩
    · show (sendMessage lib _ _ _).readyRead = false
      rw [(sendMessage_not_registering lib _ _ _ (by exact hreg)).2]; exact hskip
    · show (sendMessage lib _ _ _)._registered = false
      exact (sendMessage_not_registering lib _ _ _ (by exact hreg)).1
  | clearAll =>
    refine ⟨_, rfl, ?_, ?_⟩
    · show (sendMessage lib _ _ _).readyRead = false
      rw [(sendMessage_not_registering lib _ _ _ (by exact hreg)).2]; exact hskip
    · show (sendMessage lib _ _ _)._registered = false
      exact (sendMessage_not_registering lib _ _ _ (by exact hreg)).1
  | setRegister o p =>
    refine ⟨_, rfl, ?_, ?_⟩
    · show (setRegister lib s o p).readyRead = false
      rw [(setRegister_registered lib s o p).2]; exact hskip
    · show (setRegister lib s o p)._registered = false
      rw [(setRegister_registered lib s o p).1]; exact hreg
  | setSkipReply skip =>
    cases skip with
    | false => exact absurd rfl he
    | true => exact ⟨_, rfl, rfl, hreg⟩
  | timeout =>
    refine ⟨_, rfl, ?_, ?_⟩
    · show (connectToHost s).readyRead = false
      unfold connectToHost; split <;> exact hskip
    · show (connectToHost s)._registered = false
      unfold connectToHost; split <;> exact hreg

/-- While replies are skipped no sequence of events registers the client. -/
theorem run_skip (lib : Lib) (fuel : Nat) (events : List Event) :
    ∀ s : Client, s.readyRead = false → s._registered = false →
      (∀ e ∈ events, e ≠ Event.setSkipReply false) →
      ∃ s1, run lib fuel s events = some s1 ∧ s1.readyRead = false ∧ s1._registered = false := by
  induction events with
  | nil => intro s h1 h2 _; exact ⟨s, rfl, h1, h2⟩
  | cons e es ih =>
    intro s h1 h2 hon
    obtain ⟨s1, hs, h3, h4⟩ := step_skip lib fuel s e h1 h2 (hon e (List.mem_cons_self _ _))
    obtain ⟨s2, hr, h5, h6⟩ := ih s1 h3 h4 (fun x hx => hon x (List.mem_cons_of_mem _ hx))
    exact ⟨s2, by simp only [run, hs, hr], h5, h6⟩

/-- A gated call, whichever of the three it is, ends in `setRegister`. -/
theorem perform_gated (lib : Lib) (s : Client) (call : SendCall)
    (hc : s._socket.state = SocketState.ConnectedState) (hr : s._registered = false) :
    call.perform lib s =
      { s.wrote (frameOf (finished lib
          (Request.Register s._origin s._priority :: call.request :: s._builder)))
          with _prevSocketState := SocketState.ConnectedState, _builder := [] } := by
  cases call with
  | ofColor color priority duration =>
    simp only [SendCall.perform, SendCall.request, setColor]
    rw [sendMessage_gated lib
      { s with _builder := Request.Color (packRgb color) duration :: s._builder } _ _ hc hr]
    rfl
  | ofImage image =>
    simp only [SendCall.perform, SendCall.request, setImage]
    rw [sendMessage_gated lib
      { s with _builder := Request.Image image.pixels image.width image.height :: s._builder }
      _ _ hc hr]
    rfl
  | ofClear priority =>
    simp only [SendCall.perform, SendCall.request, clear]
    rw [sendMessage_gated lib { s with _builder := Request.Clear priority :: s._builder }
      _ _ hc hr]
    rfl

/-- A finished buffer below `2^32` bytes is written whole. -/
theorem finished_eq (lib : Lib) (b : List Request) (h : (bufferOf lib b).length < 2 ^ 32) :
    finished lib b = bufferOf lib b := by
  unfold finished GetSize
  rw [Nat.mod_eq_of_lt h, List.take_length]

/-- With the header `ff ff ff fc` in front, a pass never leaves through the loop
condition and never shortens the buffer; it runs on for ever when the verifier rejects. -/
theorem readLoop_wrap_zero (lib : Lib) (rest : List Byte) (fuel : Nat) :
    ∀ s : Client, s._receiveBuffer = 255 :: 255 :: 255 :: 252 :: rest →
      (∀ r, readLoop lib fuel s = some r →
        r.raised ≠ none ∧ r.client._receiveBuffer = 255 :: 255 :: 255 :: 252 :: rest) ∧
      (lib.VerifyReplyBuffer (rest.take 4294967292) 4294967292 = false →
        readLoop lib fuel s = none) := by
  have hm : messageSize lib 255 255 255 252 = 4294967292 := by
    rw [messageSize_eq]; rfl
  induction fuel with
  | zero =>
    intro s _
    exact ⟨fun r h => by simp [readLoop] at h, fun _ => rfl⟩
  | succ f ih =>
    intro s hb
    have hstep : readLoop lib (f + 1) s =
        if lib.VerifyReplyBuffer (rest.take 4294967292) 4294967292 then
          match parseReply s (lib.GetReply (rest.take 4294967292)) with
          | Except.ok (_, s2) =>
            (readLoop lib f s2).map (ReadResult.push (rest.take 4294967292))
          | Except.error what =>
            some { client := s, yielded := [rest.take 4294967292], raised := some what }
        else (readLoop lib f s).map (ReadResult.push (rest.take 4294967292)) := by
      conv_lhs => unfold readLoop
      rw [hb]
      simp only [hm]
      have h0 : (4294967292 + 4) % 2 ^ 32 = 0 := by norm_num
      rw [h0, if_neg (Nat.not_lt_zero _)]
      have hrm : removeFront (255 :: 255 :: 255 :: 252 :: rest) 0
          = 255 :: 255 :: 255 :: 252 :: rest := by
        simp [removeFront]
      rw [hrm, ← hb]
    rw [hstep]
    constructor
    · intro r hr
      by_cases hv : lib.VerifyReplyBuffer (rest.take 4294967292) 4294967292 = true
      · rw [if_pos hv] at hr
        cases hp : parseReply s (lib.GetReply (rest.take 4294967292)) with
        | error what =>
          rw [hp] at hr
          cases hr
          exact ⟨by simp, hb⟩
        | ok v =>
          obtain ⟨ok, s2⟩ := v
          rw [hp] at hr
          have hs2 : s2._receiveBuffer = 255 :: 255 :: 255 :: 252 :: rest := by
            rw [(parseReply_returns _ _ _ _ hp).2.2]; exact hb
          simp only [Option.map_eq_some'] at hr
          obtain ⟨r0, hr0, rfl⟩ := hr
          exact (ih s2 hs2).1 r0 hr0
      · rw [if_neg hv] at hr
        simp only [Option.map_eq_some'] at hr
        obtain ⟨r0, hr0, rfl⟩ := hr
        exact (ih s hb).1 r0 hr0
    · intro hv
      rw [hv]
      simp only [Bool.false_eq_true, if_false]
      rw [(ih s hb).2 hv]
      rfl

/-- The bytes the socket has accepted after the header and the payload were written. -/
theorem write_header_payload (sock : Socket) (n : Nat) (data : List Byte) (len : Nat) :
    ((sock.write (header n) 4).write data len).written
      = sock.written ++ (header n ++ data.take len) := by
  simp [Socket.write, header, List.append_assoc]

/-! ## The shutdown animation, call by call -/

/-- A value inside the `int` range is what the `int` holds. -/
theorem wrapInt32_of_range (x : Int) (h1 : -2147483648 ≤ x) (h2 : x < 2147483648) :
    wrapInt32 x = x := by
  unfold wrapInt32; omega

/-- One below the smallest `int` wraps around to the largest. -/
theorem wrapInt32_below : wrapInt32 (-2147483649) = 2147483647 := by
  unfold wrapInt32; omega

/-- What an `int` holds is never below the smallest `int`. -/
theorem wrapInt32_ge (x : Int) : -2147483648 ≤ wrapInt32 x := by
  unfold wrapInt32; omega

/-- What one call of `Play` does in each phase, on the written-out members. -/
theorem Play_playedForm (H n : Nat) (hH : H < 2 ^ 31) (hn : n ≤ H + 8 + 2 ^ 30) :
    (playedForm H n).Play =
      (true, playedForm H (n + 1),
        if n < 6 then
          [Effect.setFill (if n % 2 = 1 then { x := 255, y := 0, z := 0 }
            else { x := 0, y := 0, z := 0 })]
        else if n = 6 then [Effect.setFill { x := 0, y := 0, z := 0 }]
        else if n ≤ H + 7 then [Effect.setLine ((H : Int) + 6 - n) { x := 255, y := 0, z := 0 }]
        else if n = H + 8 then
          [Effect.setFill { x := 255, y := 174, z := 11 }, Effect.SetSleepTime 2000]
        else if n < H + 8 + 2 ^ 30 then [Effect.setStopMe true]
        else [Effect.setLine 2147483646 { x := 255, y := 0, z := 0 }]) := by
  have p30 : (2 : Nat) ^ 30 = 1073741824 := by norm_num
  have p31 : (2 : Nat) ^ 31 = 2147483648 := by norm_num
  rw [p30] at hn ⊢
  rw [p31] at hH
  by_cases h1 : n < 6
  · have e1 : n ≤ 6 := by omega
    have e2 : n + 1 ≤ 6 := by omega
    have e3 : ((n : Int) < 6) := by omega
    simp only [playedForm, e1, e2, if_true, Animation_SystemShutdown.Play,
      Animation_SystemShutdown.construct, e3, h1]
    by_cases hodd : n % 2 = 1
    · have : Int.tmod (n : Int) 2 ≠ 0 := by
        rw [Int.tmod_eq_emod (by omega) (by omega)]; omega
      simp [this, hodd]
    · have : Int.tmod (n : Int) 2 = 0 := by
        rw [Int.tmod_eq_emod (by omega) (by omega)]; omega
      simp [this, hodd]
  · by_cases h2 : n = 6
    · subst h2
      simp [playedForm, Animation_SystemShutdown.Play, Animation_SystemShutdown.construct]
    · by_cases h3 : n ≤ H + 7
      · have e1 : ¬ n ≤ 6 := by omega
        have e2 : ¬ n + 1 ≤ 6 := by omega
        have e3 : n ≤ H + 8 := by omega
        have e4 : n + 1 ≤ H + 8 := by omega
        have e5 : (H : Int) - ((n : Int) - 7) ≥ 0 := by omega
        have w1 : wrapInt32 ((H : Int) - ((n : Int) - 7) - 1) = (H : Int) - ((n : Int) - 7) - 1 :=
          wrapInt32_of_range _ (by omega) (by omega)
        simp only [playedForm, e1, e2, e3, e4, if_true, if_false, Animation_SystemShutdown.Play,
          Animation_SystemShutdown.construct, e5, h1, h2, h3, w1]
        simp only [Bool.false_eq_true, if_false, Prod.mk.injEq, true_and]
        refine ⟨?_, ?_⟩
        · congr 1; push_cast; omega
        · congr 2; omega
      · by_cases h4 : n = H + 8
        · subst h4
          have e1 : ¬ H + 8 ≤ 6 := by omega
          have e2 : ¬ H + 8 + 1 ≤ 6 := by omega
          have e4 : ¬ H + 8 + 1 ≤ H + 8 := by omega
          have e7 : H + 8 + 1 < H + 8 + 1073741824 := by omega
          have e5 : ¬ ((H : Int) - (((H + 8 : Nat) : Int) - 7) ≥ 0) := by push_cast; omega
          have w1 : wrapInt32 ((H : Int) - (((H + 8 : Nat) : Int) - 7) - 1) = -2 := by
            rw [wrapInt32_of_range _ (by push_cast; omega) (by push_cast; omega)]
            push_cast; omega
          have w2 : wrapInt32 (-2 - 1) = -3 := by
            rw [wrapInt32_of_range _ (by omega) (by omega)]; rfl
          have e6 : (-2 : Int) ≠ -1 := by omega
          simp only [playedForm, e1, e2, e4, e7, le_refl, if_true, if_false,
            Animation_SystemShutdown.Play, Animation_SystemShutdown.construct, e5, e6, h1, h2,
            h3, w1, w2]
          simp only [Bool.false_eq_true, if_false, if_true, Prod.mk.injEq, true_and, and_true]
          congr 1; push_cast; omega
        · by_cases h5 : n < H + 8 + 1073741824
          · have e1 : ¬ n ≤ 6 := by omega
            have e2 : ¬ n + 1 ≤ 6 := by omega
            have e3 : ¬ n ≤ H + 8 := by omega
            have e4 : ¬ n + 1 ≤ H + 8 := by omega
            have e5 : ¬ (-1 - 2 * ((n : Int) - ((H : Int) + 8)) ≥ 0) := by omega
            have w1 : wrapInt32 (-1 - 2 * ((n : Int) - ((H : Int) + 8)) - 1)
                = -1 - 2 * ((n : Int) - ((H : Int) + 8)) - 1 :=
              wrapInt32_of_range _ (by omega) (by omega)
            have e6 : -1 - 2 * ((n : Int) - ((H : Int) + 8)) - 1 ≠ -1 := by omega
            by_cases h6 : n + 1 < H + 8 + 1073741824
            · have w2 : wrapInt32 (-1 - 2 * ((n : Int) - ((H : Int) + 8)) - 1 - 1)
                  = -1 - 2 * ((n : Int) - ((H : Int) + 8)) - 1 - 1 :=
                wrapInt32_of_range _ (by omega) (by omega)
              simp only [playedForm, e1, e2, e3, e4, h5, h6, if_false, if_true,
                Animation_SystemShutdown.Play, Animation_SystemShutdown.construct, e5, e6, h1,
                h2, h3, h4, w1, w2]
              simp only [Bool.false_eq_true, if_false, Prod.mk.injEq, true_and, and_true]
              congr 1; push_cast; omega
            · have w2 : wrapInt32 (-1 - 2 * ((n : Int) - ((H : Int) + 8)) - 1 - 1)
                  = 2147483647 := by
                have : -1 - 2 * ((n : Int) - ((H : Int) + 8)) - 1 - 1 = -2147483649 := by omega
                rw [this, wrapInt32_below]
              simp only [playedForm, e1, e2, e3, e4, h5, h6, if_false, if_true,
                Animation_SystemShutdown.Play, Animation_SystemShutdown.construct, e5, e6, h1,
                h2, h3, h4, w1, w2]
              simp only [Bool.false_eq_true, if_false, Prod.mk.injEq, true_and, and_true]
              congr 1; push_cast; omega
          · have hn' : n = H + 8 + 1073741824 := by omega
            subst hn'
            have e1 : ¬ H + 8 + 1073741824 ≤ 6 := by omega
            have e2 : ¬ H + 8 + 1073741824 + 1 ≤ 6 := by omega
            have e3 : ¬ H + 8 + 1073741824 ≤ H + 8 := by omega
            have e4 : ¬ H + 8 + 1073741824 + 1 ≤ H + 8 := by omega
            have e7 : ¬ H + 8 + 1073741824 + 1 < H + 8 + 1073741824 := by omega
            have e8 : ¬ H + 8 + 1073741824 < H + 8 + 1073741824 := by omega
            have y0 : (2147483647 : Int)
                - ((((H + 8 + 1073741824 : Nat) : Int)) - ((H : Int) + 8 + 1073741824))
                = 2147483647 := by push_cast; omega
            have w1 : wrapInt32 ((2147483647 : Int) - 1) = 2147483646 := by
              rw [wrapInt32_of_range _ (by omega) (by omega)]; rfl
            simp only [playedForm, e1, e2, e3, e4, e7, e8, if_false,
              Animation_SystemShutdown.Play, Animation_SystemShutdown.construct, h1, h2, h3, h4,
              y0, w1]
            simp only [Bool.false_eq_true, if_false, Prod.mk.injEq, true_and, and_true]
            norm_num

/-- The members after `n` calls are the written-out ones, up to the first call after the
wrap-around. -/
theorem played_eq (H n : Nat) (hH : H < 2 ^ 31) (hn : n ≤ H + 9 + 2 ^ 30) :
    played H n = playedForm H n := by
  induction n with
  | zero => rfl
  | succ n ih =>
    rw [played, ih (by omega), Play_playedForm H n hH (by omega)]

/-- Call number `n + 1` of `Play`, phase by phase. -/
theorem playCall_eq (H n : Nat) (hH : H < 2 ^ 31) (hn : n ≤ H + 8 + 2 ^ 30) :
    playCall H n =
      (true,
        if n < 6 then
          [Effect.setFill (if n % 2 = 1 then { x := 255, y := 0, z := 0 }
            else { x := 0, y := 0, z := 0 })]
        else if n = 6 then [Effect.setFill { x := 0, y := 0, z := 0 }]
        else if n ≤ H + 7 then [Effect.setLine ((H : Int) + 6 - n) { x := 255, y := 0, z := 0 }]
        else if n = H + 8 then
          [Effect.setFill { x := 255, y := 174, z := 11 }, Effect.SetSleepTime 2000]
        else if n < H + 8 + 2 ^ 30 then [Effect.setStopMe true]
        else [Effect.setLine 2147483646 { x := 255, y := 0, z := 0 }]) := by
  unfold playCall
  rw [played_eq H n hH (by omega), Play_playedForm H n hH hn]

/-- The rows drawn during the first `n` calls, before the wrap-around. -/
theorem drawnRows_eq (H n : Nat) (hH : H < 2 ^ 31) (hn : n ≤ H + 8 + 2 ^ 30) :
    drawnRows H n
      = (List.range (min (n - 7) (H + 1))).map (fun k : Nat => (H : Int) - 1 - (k : Int)) := by
  induction n with
  | zero => rfl
  | succ n ih =>
    rw [drawnRows, ih (by omega), playCall_eq H n hH (by omega)]
    by_cases h1 : n < 6
    · have e : min (n + 1 - 7) (H + 1) = min (n - 7) (H + 1) := by omega
      rw [e]
      simp [h1, rowsOf]
    · by_cases h2 : n = 6
      · subst h2
        simp [rowsOf]
      · by_cases h3 : n ≤ H + 7
        · have e1 : min (n - 7) (H + 1) = n - 7 := by omega
          have e2 : min (n + 1 - 7) (H + 1) = n - 7 + 1 := by omega
          rw [e1, e2]
          simp only [h1, h2, h3, if_true, if_false, rowsOf, List.range_succ,
            List.map_append, List.map_cons, List.map_nil]
          congr 2
          omega
        · have e : min (n + 1 - 7) (H + 1) = min (n - 7) (H + 1) := by omega
          have h5 : n < H + 8 + 1073741824 := by omega
          rw [e]
          by_cases h4 : n = H + 8
          · simp [h1, h2, h3, h4, rowsOf]
          · simp [h1, h2, h3, h4, h5, rowsOf]

/-- Rows once drawn stay in the record. -/
theorem mem_drawnRows_add (H a m : Nat) (y : Int) (h : y ∈ drawnRows H a) :
    y ∈ drawnRows H (a + m) := by
  induction m with
  | zero => exact h
  | succ m ih =>
    show y ∈ drawnRows H (a + m) ++ rowsOf (playCall H (a + m)).2
    exact List.mem_append_left _ ih

/-- With `yIndex` an `int`, a call never takes the pause branch, and `yIndex` is an
`int` afterwards. -/
theorem Play_no_pause (a : Animation_SystemShutdown) (h : -2147483648 ≤ a.yIndex) :
    Effect.SetSleepTime 1000 ∉ a.Play.2.2 ∧ -2147483648 ≤ a.Play.2.1.yIndex := by
  unfold Animation_SystemShutdown.Play
  simp only
  split_ifs with c1 c2 c3 c4 c5 c6
  · exact ⟨by simp, h⟩
  · exact ⟨by simp, h⟩
  · exact ⟨by simp, h⟩
  · exact ⟨by simp, wrapInt32_ge _⟩
  · exfalso
    have hy : a.yIndex < 0 := by omega
    unfold wrapInt32 at c5
    omega
  · exact ⟨by simp, wrapInt32_ge _⟩
  · exact ⟨by simp, wrapInt32_ge _⟩

/-- `yIndex` is never below the smallest `int`. -/
theorem played_yIndex_ge (H n : Nat) : -2147483648 ≤ (played H n).yIndex := by
  induction n with
  | zero =>
    show (-2147483648 : Int) ≤ (H : Int)
    omega
  | succ n ih => exact (Play_no_pause _ ih).2

/-- C1 (amended): starting from an empty receive buffer, for every stream of valid frames
that fits the receive buffer (shorter than `2^31` bytes) and holds no verified reply with
an error, and for every cutting of the stream into chunks, the successive `readData` calls
end, and they leave the same client, the same extracted payloads in the same order (all
of them), no exception and an empty receive buffer as the single call on the whole
stream. -/
theorem readData_fragmentation_invariant (lib : Lib) (fuel : Nat) (s : Client) (payloads chunks : List (List Byte))
    (hempty : s._receiveBuffer = [])
    (hcut : joinChunks chunks = framesOf payloads)
    (hsize : (framesOf payloads).length < 2 ^ 31)
    (hok : NoError lib payloads)
    (hfuel : payloads.length < fuel) :
    ∃ r, feed lib fuel s chunks = some r ∧ feed lib fuel s [framesOf payloads] = some r ∧
      r.yielded = payloads ∧ r.client._receiveBuffer = [] ∧ r.raised = [] := by
  have hst : Stuck s._receiveBuffer payloads := by
    intro q qs _; rw [hempty]; simp
  refine ⟨_, feed_frames lib fuel chunks payloads s (by rw [hempty, hcut]; rfl) hst hsize hok hfuel,
    feed_frames lib fuel [framesOf payloads] payloads s (by rw [hempty]; simp [joinChunks]) hst hsize hok hfuel,
    rfl, rfl, rfl⟩

/-- C1 (amended) on three frames, the second failing verification, cut into six chunks. -/
theorem readData_fragmentation_invariant_witness :
    ∃ r, feed sampleLib 4 sampleClient [[0], [0, 0], [2, 0, 1, 0, 0], [0, 1, 7], [0, 0, 0, 2, 0], [255]] = some r ∧
      feed sampleLib 4 sampleClient [framesOf [[0, 1], [7], [0, 255]]] = some r ∧
      r.yielded = [[0, 1], [7], [0, 255]] ∧ r.client._receiveBuffer = [] ∧ r.raised = [] :=
  readData_fragmentation_invariant sampleLib 4 sampleClient [[0, 1], [7], [0, 255]] [[0], [0, 0], [2, 0, 1, 0, 0], [0, 1, 7], [0, 0, 0, 2, 0], [255]]
    rfl (by decide) (by decide) (by unfold NoError; decide) (by decide)

/-- C1 as stated fails: two valid frames, the first a verified reply with an error. Fed
frame by frame both payloads are extracted and the buffer ends empty; fed whole, the
exception leaves the pass after the first payload and the second frame stays buffered. -/
theorem readData_fragmentation_fails_on_error_reply :
    joinChunks [frameOf [1, 0], frameOf [0, 1]] = framesOf [[1, 0], [0, 1]] ∧
    (feed sampleLib 8 sampleClient [frameOf [1, 0], frameOf [0, 1]]).map
        (fun r => (r.yielded, r.client._receiveBuffer)) = some ([[1, 0], [0, 1]], []) ∧
    (feed sampleLib 8 sampleClient [framesOf [[1, 0], [0, 1]]]).map
        (fun r => (r.yielded, r.client._receiveBuffer)) = some ([[1, 0]], frameOf [0, 1]) := by
  decide

/-- C2: with exactly the four bytes `ff ff ff ff` buffered the announced length is
`2^32 - 1` and no byte follows the header, yet the pass does not stop with the buffer
unchanged: `messageSize + 4` wraps to 3, an empty payload is extracted and three header
bytes are removed. -/
theorem readLoop_length_wrap (lib : Lib) (s : Client) (fuel : Nat) :
    ∃ r, readLoop lib (fuel + 2) { s with _receiveBuffer := [255, 255, 255, 255] } = some r ∧
      r.client._receiveBuffer = [255] ∧ r.yielded = [[]] := by
  have hm : messageSize lib 255 255 255 255 = 4294967295 := by
    rw [messageSize_eq]; rfl
  have h1 : ∀ c : Client, c._receiveBuffer = [255] →
      readLoop lib (fuel + 1) c = some { client := c, yielded := [], raised := none } := by
    intro c hc
    unfold readLoop
    rw [hc]
  conv => enter [1, r, 1, 1]; unfold readLoop
  simp only [hm, removeFront]
  norm_num
  by_cases hv : lib.VerifyReplyBuffer [] 4294967295 = true
  · simp only [hv, if_true]
    cases hp : parseReply { s with _receiveBuffer := [255] } (lib.GetReply []) with
    | error what => exact ⟨_, rfl, rfl, rfl⟩
    | ok v =>
      obtain ⟨ok, s2⟩ := v
      have hs2 : s2._receiveBuffer = [255] := by
        rw [(parseReply_returns _ _ _ _ hp).2.2]
      simp only [h1 s2 hs2]
      exact ⟨_, rfl, hs2, rfl⟩
  · simp only [hv]
    rw [h1 _ rfl]
    exact ⟨_, rfl, rfl, rfl⟩

/-- C3 (amended): for every configured priority and every reply without an error,
`parseReply` returns `true` and changes nothing but the flag; the flag is `true` when the
reply's `registered` is not `-1` and equals the priority, and `false` when it is `-1` or
differs from the priority. -/
theorem parseReply_registration (s : Client) (reply : Reply) (he : reply.error = none) :
    ∃ s2, parseReply s reply = Except.ok (true, s2) ∧
      (reply.registered ≠ -1 → reply.registered = s._priority → s2._registered = true) ∧
      (reply.registered = -1 ∨ reply.registered ≠ s._priority → s2._registered = false) ∧
      s2 = { s with _registered := s2._registered } := by
  refine ⟨_, parseReply_ok s reply he, ?_, ?_, rfl⟩
  · intro h1 h2
    have h3 : ¬ (reply.registered = -1 ∨ reply.registered ≠ s._priority) := by
      rintro (h | h)
      · exact h1 h
      · exact h h2
    simp only [h3, not_false_eq_true, decide_True]
  · intro h
    simp only [h, not_true_eq_false, decide_False]

/-- C3 (amended) at priority 1 and a reply with `registered = 1`. -/
theorem parseReply_registration_witness :
    ∃ s2, parseReply sampleClient { error := none, video := -1, registered := 1 }
        = Except.ok (true, s2) ∧
      (((1 : Int) ≠ -1 → (1 : Int) = 1 → s2._registered = true)) ∧
      ((1 : Int) = -1 ∨ (1 : Int) ≠ 1 → s2._registered = false) ∧
      s2 = { sampleClient with _registered := s2._registered } :=
  parseReply_registration sampleClient { error := none, video := -1, registered := 1 } rfl

/-- C3 as stated fails at the configured priority `-1`: the reply's `registered` equals
the priority and the flag is `false` afterwards. -/
theorem parseReply_unset_priority :
    ∃ s2, parseReply { sampleClient with _priority := -1 }
        { error := none, video := -1, registered := -1 } = Except.ok (true, s2) ∧
      (-1 : Int) = ({ sampleClient with _priority := -1 } : Client)._priority ∧
      s2._registered = false :=
  ⟨_, rfl, rfl, rfl⟩

/-- C4: for every `setColor`, `setImage` or `clear` call on a client whose socket is
connected and whose `registered` is `false`, the call ends in `setRegister`: the socket
accepts exactly one frame more, a header followed by the finished buffer whose newest
request is the Register request with the configured origin and priority (the caller's
request stays behind it in the buffer and is not a frame of its own), and `registered`
is still `false`. -/
theorem gate_writes_register_frame (lib : Lib) (s : Client) (call : SendCall)
    (hc : s._socket.state = SocketState.ConnectedState) (hr : s._registered = false) :
    call.perform lib s =
      { s.wrote (frameOf (finished lib
          (Request.Register s._origin s._priority :: call.request :: s._builder)))
          with _prevSocketState := SocketState.ConnectedState, _builder := [] } ∧
    Request.Register s._origin s._priority ≠ call.request ∧
    (call.perform lib s)._registered = false := by
  cases call with
  | ofColor color priority duration =>
    simp only [SendCall.perform, SendCall.request, setColor]
    rw [sendMessage_gated lib
      { s with _builder := Request.Color (packRgb color) duration :: s._builder } _ _ hc hr]
    exact ⟨rfl, by simp, hr⟩
  | ofImage image =>
    simp only [SendCall.perform, SendCall.request, setImage]
    rw [sendMessage_gated lib
      { s with _builder := Request.Image image.pixels image.width image.height :: s._builder }
      _ _ hc hr]
    exact ⟨rfl, by simp, hr⟩
  | ofClear priority =>
    simp only [SendCall.perform, SendCall.request, clear]
    rw [sendMessage_gated lib { s with _builder := Request.Clear priority :: s._builder }
      _ _ hc hr]
    exact ⟨rfl, by simp, hr⟩

/-- C4 for `setColor({255,0,0}, 1, 0)` on the unregistered sample client: the bytes on the
socket are one frame of eight payload bytes that starts with the Register request. -/
theorem gate_writes_register_frame_witness :
    (setColor sampleLib { sampleClient with _registered := false } ⟨255, 0, 0⟩ 1 0)._socket.written
      = [0, 0, 0, 8, 1, 7, 1, 2, 255, 0, 0, 0] :=
  congrArg (fun c : Client => c._socket.written)
    (gate_writes_register_frame sampleLib { sampleClient with _registered := false }
      (SendCall.ofColor ⟨255, 0, 0⟩ 1 0) rfl rfl).1

/-- C5 (amended): for every client whose socket is connected, whose previous send saw it
connected (`_prevSocketState`), and whose `registered` is `true`, `setColor` changes
nothing but the socket, which accepts exactly one frame more: the header followed by the
finished Color request with `rgb = (r<<16)|(g<<8)|b`, a value of at most `0xFFFFFF`, and
the given duration. -/
theorem setColor_registered_frame (lib : Lib) (s : Client) (color : ColorRgb)
    (priority duration : Int)
    (hc : s._socket.state = SocketState.ConnectedState)
    (hp : s._prevSocketState = SocketState.ConnectedState) (hr : s._registered = true) :
    setColor lib s color priority duration =
      { s.wrote (frameOf (finished lib (Request.Color (packRgb color) duration :: s._builder)))
          with _builder := [] } ∧
    packRgb color = color.red.val * 65536 + color.green.val * 256 + color.blue.val ∧
    packRgb color ≤ 0xFFFFFF := by
  refine ⟨setColor_registered lib s color priority duration hc hp hr, packRgb_eq color, ?_⟩
  rw [packRgb_eq]
  have h1 := color.red.isLt
  have h2 := color.green.isLt
  have h3 := color.blue.isLt
  omega

/-- C5 (amended) at priority 1 and `setColor({255,0,0}, 1, 0)`: one Color frame with
`rgb = 0xFF0000` and duration 0. -/
theorem setColor_registered_frame_witness :
    setColor sampleLib sampleClient ⟨255, 0, 0⟩ 1 0 =
      sampleClient.wrote (frameOf (finished sampleLib [Request.Color 0xFF0000 0])) ∧
    frameOf (finished sampleLib [Request.Color 0xFF0000 0]) = [0, 0, 0, 5, 2, 255, 0, 0, 0] :=
  ⟨(setColor_registered_frame sampleLib sampleClient ⟨255, 0, 0⟩ 1 0 rfl rfl rfl).1, by decide⟩

/-- C5 as stated fails for a connected, registered client whose previous send saw the
socket unconnected, a state reached when the connection comes up and a registered reply
arrives before the first send: `setColor` resets the flag first and the frame written is
the Register frame, not the Color frame. -/
theorem setColor_after_unseen_connect :
    run sampleLib 2
      { sampleClient with
        _socket := { state := SocketState.UnconnectedState, written := [], connectAttempts := [] },
        _prevSocketState := SocketState.UnconnectedState, _registered := false }
      [Event.stateChanged SocketState.ConnectedState, Event.received [0, 0, 0, 2, 0, 1]]
      = some { sampleClient with _prevSocketState := SocketState.UnconnectedState } ∧
    (setColor sampleLib { sampleClient with _prevSocketState := SocketState.UnconnectedState }
        ⟨255, 0, 0⟩ 1 0)._socket.written
      = frameOf (finished sampleLib [Request.Register "grabber" 1, Request.Color 0xFF0000 0]) ∧
    frameOf (finished sampleLib [Request.Register "grabber" 1, Request.Color 0xFF0000 0])
      ≠ frameOf (finished sampleLib [Request.Color 0xFF0000 0]) ∧
    (setColor sampleLib { sampleClient with _prevSocketState := SocketState.UnconnectedState }
        ⟨255, 0, 0⟩ 1 0)._registered = false :=
  ⟨rfl, by decide, by decide, by decide⟩

/-- C6: the connected and registered sample client loses its connection and gets a new
one between two send calls; the next `setColor` finds the socket state it saw before,
keeps `registered = true` and writes the caller's Color frame on the new connection, with
no registered reply received since the transitions. -/
theorem reconnect_between_sends_keeps_registered (lib : Lib) (fuel : Nat) (color : ColorRgb)
    (priority duration : Int) :
    run lib fuel sampleClient
      [Event.stateChanged SocketState.UnconnectedState,
       Event.stateChanged SocketState.ConnectedState,
       Event.setColor color priority duration]
      = some (sampleClient.wrote
          (frameOf (finished lib [Request.Color (packRgb color) duration]))) ∧
    (sampleClient.wrote
      (frameOf (finished lib [Request.Color (packRgb color) duration])))._registered = true := by
  refine ⟨?_, rfl⟩
  simp only [run, step]
  have h := setColor_registered lib sampleClient color priority duration rfl rfl rfl
  have e : ({ sampleClient with _socket :=
      { ({ sampleClient with _socket :=
          { sampleClient._socket with state := SocketState.UnconnectedState } } : Client)._socket
        with state := SocketState.ConnectedState } } : Client) = sampleClient := rfl
  rw [e, h]
  rfl

/-- C7: `parseReply` throws exactly when the reply's error is present; and when the frame
at the front of the buffer is a verified reply with an error, the `readData` pass ends
with that exception, having extracted only this frame: the frame is gone from the receive
buffer, the bytes after it are all still there, and `registered`, the socket and every
other member are as before the call. -/
theorem error_reply_aborts_pass (lib : Lib) (fuel : Nat) (s : Client)
    (chunk p rest : List Byte) (what : String)
    (hbuf : s._receiveBuffer ++ chunk = frameOf p ++ rest)
    (hlen : (s._receiveBuffer ++ chunk).length < 2 ^ 31)
    (hv : lib.VerifyReplyBuffer p p.length = true)
    (he : (lib.GetReply p).error = some what) :
    (∀ (c : Client) (reply : Reply),
        (∃ w, parseReply c reply = Except.error w) ↔ reply.error ≠ none) ∧
    readData lib (fuel + 1) s chunk =
      some { client := { s with _receiveBuffer := rest }, yielded := [p], raised := some what } := by
  refine ⟨parseReply_error_iff, ?_⟩
  unfold readData
  rw [readLoop_frame lib fuel _ p rest hbuf hlen, if_pos hv]
  simp only [parseReply, he]

/-- C7 on an error reply followed by a registered reply: the second frame stays buffered. -/
theorem error_reply_aborts_pass_witness :
    readData sampleLib 1 sampleClient [0, 0, 0, 2, 1, 0, 0, 0, 0, 2, 0, 1] =
      some { client := { sampleClient with _receiveBuffer := [0, 0, 0, 2, 0, 1] },
             yielded := [[1, 0]], raised := some "error" } :=
  (error_reply_aborts_pass sampleLib 0 sampleClient [0, 0, 0, 2, 1, 0, 0, 0, 0, 2, 0, 1]
    [1, 0] [0, 0, 0, 2, 0, 1] "error" (by decide) (by decide) (by decide) (by decide)).2

/-- C8: when the buffer holds a complete frame whose payload fails verification, followed
by complete frames, the pass over the frames that follow ends with some result, and the
pass over the whole buffer ends with the same result (same client, same exception if
one of the later frames raises one) with the bad payload extracted first: the bad frame
is removed, changes nothing else and raises nothing. -/
theorem decode_failure_skipped (lib : Lib) (fuel : Nat) (s : Client) (chunk bad : List Byte)
    (ps : List (List Byte))
    (hbuf : s._receiveBuffer ++ chunk = frameOf bad ++ framesOf ps)
    (hlen : (s._receiveBuffer ++ chunk).length < 2 ^ 31)
    (hbad : lib.VerifyReplyBuffer bad bad.length = false)
    (hfuel : ps.length < fuel) :
    ∃ r, readLoop lib fuel { s with _receiveBuffer := framesOf ps } = some r ∧
      readData lib (fuel + 1) s chunk = some (r.push bad) := by
  have hl : (framesOf ps).length < 2 ^ 31 := by
    have h : (s._receiveBuffer ++ chunk).length = (frameOf bad ++ framesOf ps).length := by
      rw [hbuf]
    rw [List.length_append (frameOf bad) (framesOf ps)] at h
    omega
  obtain ⟨r, hr⟩ :=
    readLoop_frames_total lib ps fuel { s with _receiveBuffer := framesOf ps } rfl hl hfuel
  refine ⟨r, hr, ?_⟩
  unfold readData
  rw [readLoop_frame lib fuel _ bad (framesOf ps) hbuf hlen, if_neg (by simp [hbad])]
  simp only [hr, Option.map_some']

/-- C8 on a one-byte frame that fails verification followed by a reply frame. -/
theorem decode_failure_skipped_witness :
    ∃ r, readLoop sampleLib 2 { sampleClient with _receiveBuffer := framesOf [[0, 7]] } = some r ∧
      readData sampleLib 3 sampleClient [0, 0, 0, 1, 9, 0, 0, 0, 2, 0, 7] = some (r.push [9]) :=
  decode_failure_skipped sampleLib 2 sampleClient [0, 0, 0, 1, 9, 0, 0, 0, 2, 0, 7] [9] [[0, 7]]
    (by decide) (by decide) (by decide) (by decide)

/-- C9 (amended): on a client whose socket is not connected, `sendMessage` writes nothing
and keeps nothing of the payload: the client it leaves does not depend on the payload,
and differs from the client before only in that `_prevSocketState` now holds the socket
state and `registered` is `false` if the two states differed. The public send calls
leave the same client with the builder cleared. With the two states equal `sendMessage`
leaves the client as it was. -/
theorem send_unconnected_noop (lib : Lib) (s : Client) (call : SendCall) (buffer : List Byte)
    (size : Nat) (hn : s._socket.state ≠ SocketState.ConnectedState) :
    sendMessage lib s buffer size =
      { s with _registered := decide (s._socket.state = s._prevSocketState) && s._registered,
               _prevSocketState := s._socket.state } ∧
    call.perform lib s =
      { s with _registered := decide (s._socket.state = s._prevSocketState) && s._registered,
               _prevSocketState := s._socket.state, _builder := [] } ∧
    clearAll lib s =
      { s with _registered := decide (s._socket.state = s._prevSocketState) && s._registered,
               _prevSocketState := s._socket.state, _builder := [] } ∧
    (s._socket.state = s._prevSocketState → sendMessage lib s buffer size = s) := by
  refine ⟨sendMessage_unconnected lib s buffer size hn, ?_, ?_, ?_⟩
  · cases call with
    | ofColor color priority duration =>
      simp only [SendCall.perform, setColor]
      rw [sendMessage_unconnected lib
        { s with _builder := Request.Color (packRgb color) duration :: s._builder } _ _ hn]
    | ofImage image =>
      simp only [SendCall.perform, setImage]
      rw [sendMessage_unconnected lib
        { s with _builder := Request.Image image.pixels image.width image.height :: s._builder }
        _ _ hn]
    | ofClear priority =>
      simp only [SendCall.perform, clear]
      rw [sendMessage_unconnected lib { s with _builder := Request.Clear priority :: s._builder }
        _ _ hn]
  · simp only [clearAll, clear]
    rw [sendMessage_unconnected lib { s with _builder := Request.Clear (-1) :: s._builder }
      _ _ hn]
  · intro hp
    rw [sendMessage_unconnected lib s buffer size hn]
    obtain ⟨⟨st, wr, att⟩, origin, prio, prev, reg, host, port, rb, b, rr⟩ := s
    simp only at hp
    subst hp
    simp

/-- C9 (amended) on a client that has been unconnected since its previous send. -/
theorem send_unconnected_noop_witness :
    sendMessage sampleLib
      { sampleClient with
        _socket := { state := SocketState.UnconnectedState, written := [], connectAttempts := [] },
        _prevSocketState := SocketState.UnconnectedState }
      [1, 2, 3] 3 =
      { sampleClient with
        _socket := { state := SocketState.UnconnectedState, written := [], connectAttempts := [] },
        _prevSocketState := SocketState.UnconnectedState } :=
  (send_unconnected_noop sampleLib
    { sampleClient with
      _socket := { state := SocketState.UnconnectedState, written := [], connectAttempts := [] },
      _prevSocketState := SocketState.UnconnectedState }
    (SendCall.ofClear 1) [1, 2, 3] 3 (by decide)).2.2.2 rfl

/-- C9 as stated fails: the first send after the connection was lost changes the
client, `registered` goes from `true` to `false` and `_prevSocketState` follows the
socket. -/
theorem send_unconnected_resets_registered :
    ({ sampleClient with
        _socket := { state := SocketState.UnconnectedState, written := [], connectAttempts := [] } }
      : Client)._registered = true ∧
    sendMessage sampleLib
      { sampleClient with
        _socket := { state := SocketState.UnconnectedState, written := [], connectAttempts := [] } }
      [1, 2, 3] 3 =
      { sampleClient with
        _socket := { state := SocketState.UnconnectedState, written := [], connectAttempts := [] },
        _prevSocketState := SocketState.UnconnectedState,
        _registered := false } := by
  decide

/-- C10: for every payload size `n` below `2^32`, `sendMessage` (on a connected and
registered client) and `setRegister` (when the builder holds `n` bytes) put `header n`
and then `n` payload bytes on the socket; the bytes of `header n` are the big-endian
bytes of `n`, most significant first; the length `readData` computes from any four bytes
is `b0*2^24 + b1*2^16 + b2*2^8 + b3`, whether `char` is signed or not; the length read
from the header written for `n` is `n`, and `readData` takes the `n` payload bytes back
out of the frame. -/
theorem header_codec_roundtrip (lib : Lib) (s : Client) (origin : String) (priority : Int)
    (buffer : List Byte) (n : Nat) (b0 b1 b2 b3 : Byte) (hn : n < 2 ^ 32) :
    (s._socket.state = SocketState.ConnectedState →
      s._prevSocketState = SocketState.ConnectedState → s._registered = true →
      (sendMessage lib s buffer n)._socket.written
        = s._socket.written ++ (header n ++ buffer.take n)) ∧
    (GetSize lib (Request.Register origin priority :: s._builder) = n →
      (setRegister lib s origin priority)._socket.written
        = s._socket.written ++
          (header n ++ (bufferOf lib (Request.Register origin priority :: s._builder)).take n)) ∧
    (header n).map Fin.val = [n / 2 ^ 24, n / 2 ^ 16 % 256, n / 2 ^ 8 % 256, n % 256] ∧
    n = n / 2 ^ 24 * 2 ^ 24 + n / 2 ^ 16 % 256 * 2 ^ 16 + n / 2 ^ 8 % 256 * 2 ^ 8 + n % 256 ∧
    messageSize lib b0 b1 b2 b3
      = b0.val * 2 ^ 24 + b1.val * 2 ^ 16 + b2.val * 2 ^ 8 + b3.val ∧
    (∃ h0 h1 h2 h3 : Byte, header n = [h0, h1, h2, h3] ∧ messageSize lib h0 h1 h2 h3 = n) ∧
    (∀ payload : List Byte, payload.length = n → n + 4 < 2 ^ 31 →
      ∃ r, readData lib 2 { s with _receiveBuffer := [] } (header n ++ payload) = some r ∧
        r.yielded = [payload] ∧ r.client._receiveBuffer = []) := by
  refine ⟨?_, ?_, ?_, by omega, messageSize_eq lib b0 b1 b2 b3, header_decode lib n hn, ?_⟩
  · intro hc hp hr
    rw [sendMessage_registered lib s buffer n hc hp hr]
    exact write_header_payload s._socket n buffer n
  · intro hs
    unfold setRegister
    simp only [hs]
    exact write_header_payload s._socket n _ n
  · rw [header_val]
    have : n / 2 ^ 24 % 256 = n / 2 ^ 24 := by omega
    rw [this]
  · intro payload hl hb
    subst hl
    have h := readData_one_frame lib 0 { s with _receiveBuffer := [] } payload rfl
      (by rw [frameOf_length]; omega)
    unfold frameOf at h
    exact h

/-- C10 at `n = 3`: the frames `sendMessage` and `setRegister` write, their header, the
bytes `ff ff ff fd` read as signed `char`s, and the payload read back. -/
theorem header_codec_roundtrip_witness :
    (sendMessage sampleLib sampleClient [9, 8, 7] 3)._socket.written = [0, 0, 0, 3, 9, 8, 7] ∧
    (setRegister sampleLib sampleClient "grabber" 1)._socket.written = [0, 0, 0, 3, 1, 7, 1] ∧
    (header 3).map Fin.val = [0, 0, 0, 3] ∧
    messageSize sampleLib 255 255 255 253 = 4294967293 ∧
    ∃ r, readData sampleLib 2 { sampleClient with _receiveBuffer := [] }
        (header 3 ++ [9, 8, 7]) = some r ∧
      r.yielded = [[9, 8, 7]] ∧ r.client._receiveBuffer = [] :=
  have h := header_codec_roundtrip sampleLib sampleClient "grabber" 1 [9, 8, 7] 3
    255 255 255 253 (by decide)
  ⟨h.1 rfl rfl rfl, h.2.1 (by decide), h.2.2.1, h.2.2.2.2.1,
    h.2.2.2.2.2.2 [9, 8, 7] rfl (by decide)⟩

/-- C11: for every address string, construction succeeds exactly when splitting the
string on `:` gives two parts (the string holds exactly one colon) and the second part
parses as an unsigned 16-bit integer; the client then has the first part as host and the
parsed value as port; in every other case construction throws and there is no client. -/
theorem endpoint_parsing (toUShort : String → Option (Fin 65536)) (origin address : String)
    (priority : Int) (skipReply : Bool) :
    (∀ c, FlatBufferConnection toUShort origin address priority skipReply = Except.ok c ↔
      ∃ host portPart port, split address = [host, portPart] ∧ toUShort portPart = some port ∧
        c = { _socket := { state := SocketState.UnconnectedState, written := [],
                           connectAttempts := [(host, port.val)] }
              _origin := origin
              _priority := priority
              _prevSocketState := SocketState.UnconnectedState
              _registered := false
              _host := host
              _port := port.val
              _receiveBuffer := []
              _builder := []
              readyRead := !skipReply }) ∧
    ((¬ ∃ host portPart port, split address = [host, portPart] ∧ toUShort portPart = some port) →
      ∃ what, FlatBufferConnection toUShort origin address priority skipReply
        = Except.error what) ∧
    (split address).length = address.data.count ':' + 1 := by
  refine ⟨?_, ?_, ?_⟩
  · intro c
    unfold FlatBufferConnection
    constructor
    · intro h
      split at h
      · rename_i host portPart hs
        split at h
        · cases h
        · rename_i port hp
          refine ⟨host, portPart, port, hs, hp, ?_⟩
          cases h
          rfl
      · cases h
    · rintro ⟨host, portPart, port, hs, hp, rfl⟩
      rw [hs]
      simp only [hp]
      rfl
  · intro hno
    unfold FlatBufferConnection
    split
    · rename_i host portPart hs
      split
      · exact ⟨_, rfl⟩
      · rename_i port hp
        exact absurd ⟨host, portPart, port, hs, hp⟩ hno
    · exact ⟨_, rfl⟩
  · simp [split, splitChars_length]

/-- C11 on the three addresses of the specification, with a decimal parser standing in
for `toUShort`. -/
theorem endpoint_parsing_witness :
    FlatBufferConnection sampleToUShort "grabber" "127.0.0.1:19400" 1 false =
      Except.ok { sampleClient with
        _socket := { state := SocketState.UnconnectedState, written := [],
                     connectAttempts := [("127.0.0.1", 19400)] },
        _prevSocketState := SocketState.UnconnectedState, _registered := false } ∧
    FlatBufferConnection sampleToUShort "grabber" "badaddress" 1 false =
      Except.error "FLATBUFCONNECTION ERROR: Unable to parse address (badaddress)" ∧
    FlatBufferConnection sampleToUShort "grabber" "host:notanumber" 1 false =
      Except.error "FLATBUFCONNECTION ERROR: Unable to parse the port (notanumber)" :=
  ⟨rfl, rfl, rfl⟩

/-- C12 (amended): for every client constructed with `skipReply = true`, and for every
client that is unsubscribed (after `setSkipReply(true)`) and unregistered, and for every
sequence of inbound bytes, transport events, timer ticks and calls that does not turn the
subscription back on: the events are all handled, `registered` is `false` afterwards, and
every `setColor`, `setImage` or `clear` call made then while connected writes one Register
frame and no frame of its own. -/
theorem skip_reply_never_registers (lib : Lib) (fuel : Nat)
    (toUShort : String → Option (Fin 65536)) (s : Client) (events : List Event)
    (hstart : (∃ origin address priority,
        FlatBufferConnection toUShort origin address priority true = Except.ok s) ∨
      (s.readyRead = false ∧ s._registered = false))
    (hon : ∀ e ∈ events, e ≠ Event.setSkipReply false) :
    ∃ s1, run lib fuel s events = some s1 ∧ s1.readyRead = false ∧ s1._registered = false ∧
      ∀ call : SendCall, s1._socket.state = SocketState.ConnectedState →
        call.perform lib s1 =
          { s1.wrote (frameOf (finished lib
              (Request.Register s1._origin s1._priority :: call.request :: s1._builder)))
              with _prevSocketState := SocketState.ConnectedState, _builder := [] } ∧
        Request.Register s1._origin s1._priority ≠ call.request := by
  have h0 : s.readyRead = false ∧ s._registered = false := by
    rcases hstart with ⟨origin, address, priority, h⟩ | h
    · exact constructed_skip toUShort origin address priority s h
    · exact h
  obtain ⟨s1, hrun, h1, h2⟩ := run_skip lib fuel events s h0.1 h0.2 hon
  refine ⟨s1, hrun, h1, h2, ?_⟩
  intro call hc
  refine ⟨perform_gated lib s1 call hc h2, ?_⟩
  cases call <;> simp [SendCall.request]

/-- C12 (amended) on an unsubscribed, unregistered client: a registered reply arrives,
the timer fires, and `setColor` still writes the Register frame. -/
theorem skip_reply_never_registers_witness :
    ∃ s1, run sampleLib 2 { sampleClient with _registered := false, readyRead := false }
        [Event.received [0, 0, 0, 2, 0, 1], Event.timeout, Event.setColor ⟨255, 0, 0⟩ 1 0]
        = some s1 ∧ s1.readyRead = false ∧ s1._registered = false :=
  (skip_reply_never_registers sampleLib 2 sampleToUShort
    { sampleClient with _registered := false, readyRead := false }
    [Event.received [0, 0, 0, 2, 0, 1], Event.timeout, Event.setColor ⟨255, 0, 0⟩ 1 0]
    (Or.inr ⟨rfl, rfl⟩) (by decide)).imp fun _ h => ⟨h.1, h.2.1, h.2.2.1⟩

/-- C12 as stated fails after `setSkipReply(true)` on a registered client: a client
constructed with replies on connects, registers, then turns replies off; `registered`
stays `true` and the next `setColor` writes its Color frame. -/
theorem skip_after_registration_sends_payload :
    FlatBufferConnection sampleToUShort "grabber" "127.0.0.1:19400" 1 false =
      Except.ok { sampleClient with
        _socket := { state := SocketState.UnconnectedState, written := [],
                     connectAttempts := [("127.0.0.1", 19400)] },
        _prevSocketState := SocketState.UnconnectedState, _registered := false } ∧
    (run sampleLib 2
      { sampleClient with
        _socket := { state := SocketState.UnconnectedState, written := [],
                     connectAttempts := [("127.0.0.1", 19400)] },
        _prevSocketState := SocketState.UnconnectedState, _registered := false }
      [Event.stateChanged SocketState.ConnectedState, Event.setColor ⟨0, 0, 0⟩ 1 0,
       Event.received [0, 0, 0, 2, 0, 1], Event.setSkipReply true,
       Event.setColor ⟨255, 0, 0⟩ 1 0]).map
        (fun c => (c.readyRead, c._registered, c._socket.written))
      = some (false, true,
          [0, 0, 0, 8, 1, 7, 1, 2, 0, 0, 0, 0] ++ [0, 0, 0, 5, 2, 255, 0, 0, 0]) :=
  ⟨rfl, by decide⟩

/-- C13: `connectToHost`, the slot of the timer and the call made at construction,
records a connect attempt on the socket exactly when the socket state is Unconnected; in
every other state, Connecting and Connected among them, it leaves the client as it is;
and in no state does it change anything but the socket's record of attempts. -/
theorem connectToHost_only_when_unconnected (s : Client) :
    ((connectToHost s)._socket.connectAttempts
        = s._socket.connectAttempts ++ [(s._host, s._port)] ↔
      s._socket.state = SocketState.UnconnectedState) ∧
    (s._socket.state ≠ SocketState.UnconnectedState → connectToHost s = s) ∧
    (s._socket.state = SocketState.ConnectingState ∨
      s._socket.state = SocketState.ConnectedState → connectToHost s = s) ∧
    connectToHost s = { s with _socket :=
      { s._socket with connectAttempts := (connectToHost s)._socket.connectAttempts } } := by
  have hne : s._socket.state ≠ SocketState.UnconnectedState → connectToHost s = s := by
    intro h
    unfold connectToHost
    rw [if_neg h]
  refine ⟨⟨?_, ?_⟩, hne, ?_, ?_⟩
  · intro h
    by_contra hc
    rw [hne hc] at h
    have hl := congrArg List.length h
    simp at hl
  · intro h
    unfold connectToHost
    rw [if_pos h]
    rfl
  · rintro (h | h) <;> exact hne (by rw [h]; decide)
  · unfold connectToHost
    split <;> rfl

/-- C14: on a connected, unregistered client the bytes a gated call writes are the
header for the whole builder buffer, the Register request built in front of the
caller's finished request, and then the caller's already-encoded payload itself (for a
buffer below `2^32` bytes): the payload is sent along and the bytes depend on it. -/
theorem gated_frame_carries_caller_payload (lib : Lib) (s : Client) (call : SendCall)
    (hc : s._socket.state = SocketState.ConnectedState) (hr : s._registered = false)
    (hsize : (bufferOf lib
      (Request.Register s._origin s._priority :: call.request :: s._builder)).length < 2 ^ 32) :
    (call.perform lib s)._socket.written =
      s._socket.written ++
        (header (bufferOf lib
            (Request.Register s._origin s._priority :: call.request :: s._builder)).length ++
          (lib.encode (Request.Register s._origin s._priority)
              (bufferOf lib (call.request :: s._builder)) ++
            bufferOf lib (call.request :: s._builder))) := by
  rw [perform_gated lib s call hc hr]
  show s._socket.written ++ frameOf (finished lib _) = _
  rw [finished_eq lib _ hsize, frameOf]
  rfl

/-- C14 on the sample client: two `setColor` calls with different colours write
different bytes, both ending in the caller's Color payload, and neither writes the seven
bytes of a direct `setRegister` call. -/
theorem gated_frame_carries_caller_payload_witness :
    (setColor sampleLib { sampleClient with _registered := false } ⟨255, 0, 0⟩ 1 0)._socket.written
      = [0, 0, 0, 8, 1, 7, 1, 2, 255, 0, 0, 0] ∧
    (setColor sampleLib { sampleClient with _registered := false } ⟨0, 0, 255⟩ 1 0)._socket.written
      = [0, 0, 0, 8, 1, 7, 1, 2, 0, 0, 255, 0] ∧
    (setRegister sampleLib { sampleClient with _registered := false } "grabber" 1)._socket.written
      = [0, 0, 0, 3, 1, 7, 1] :=
  ⟨gated_frame_carries_caller_payload sampleLib { sampleClient with _registered := false } (SendCall.ofColor ⟨255, 0, 0⟩ 1 0)
      rfl rfl (by decide),
    by decide, by decide⟩

/-- C15: with the header `ff ff ff fc` at the front of the receive buffer, whatever
follows it, an iteration removes no byte and the pass never leaves through the loop
condition: for every bound on the iterations it is either still running or has been left
by an exception, with the buffer as it was; it runs on for ever whenever the verifier
rejects the message, as it does in the sample environment. -/
theorem readLoop_spins_on_wrapped_length (lib : Lib) (s : Client) (rest : List Byte)
    (fuel : Nat) :
    (∀ r, readLoop lib fuel { s with _receiveBuffer := 255 :: 255 :: 255 :: 252 :: rest }
        = some r →
      r.raised ≠ none ∧ r.client._receiveBuffer = 255 :: 255 :: 255 :: 252 :: rest) ∧
    (lib.VerifyReplyBuffer (rest.take 4294967292) 4294967292 = false →
      readLoop lib fuel { s with _receiveBuffer := 255 :: 255 :: 255 :: 252 :: rest } = none) ∧
    readLoop sampleLib fuel { sampleClient with _receiveBuffer := [255, 255, 255, 252] }
      = none :=
  ⟨(readLoop_wrap_zero lib rest fuel _ rfl).1, (readLoop_wrap_zero lib rest fuel _ rfl).2,
    (readLoop_wrap_zero sampleLib [] fuel _ rfl).2 rfl⟩

/-- C17: for a canvas height `H` that is an `int`, over a run of `Play` of `H + 8` calls
or more (up to `H + 8 + 2^30`, before `yIndex` wraps around) the rows handed to `setLine`
are `H-1, H-2, ..., 0, -1` in that order: call `H + 8` draws row `-1`, which is not on
the canvas, and the row stays drawn however long the run; for `H = 2` the rows of the
first twelve calls are `1, 0, -1`. -/
theorem line_sweep_draws_row_minus_one (H m : Nat) :
    (H < 2 ^ 31 → m ≤ 2 ^ 30 →
      drawnRows H (H + 8 + m)
        = (List.range (H + 1)).map (fun k : Nat => (H : Int) - 1 - (k : Int))) ∧
    (H < 2 ^ 31 →
      (playCall H (H + 7)).2 = [Effect.setLine (-1) { x := 255, y := 0, z := 0 }]) ∧
    (H < 2 ^ 31 → (-1 : Int) ∈ drawnRows H (H + 8 + m)) ∧
    drawnRows 2 12 = [1, 0, -1] := by
  have hrows : ∀ k, H < 2 ^ 31 → k ≤ 2 ^ 30 → drawnRows H (H + 8 + k)
      = (List.range (H + 1)).map (fun k : Nat => (H : Int) - 1 - (k : Int)) := by
    intro k hH hk
    rw [drawnRows_eq H (H + 8 + k) hH (by omega)]
    have e : min (H + 8 + k - 7) (H + 1) = H + 1 := by omega
    rw [e]
  refine ⟨hrows m, ?_, ?_, by decide⟩
  · intro hH
    rw [playCall_eq H (H + 7) hH (by omega)]
    have h1 : ¬ H + 7 < 6 := by omega
    have h2 : H + 7 ≠ 6 := by omega
    simp only [h1, h2, if_false, le_refl, if_true]
    congr 2
    push_cast
    omega
  · intro hH
    apply mem_drawnRows_add
    have h0 := hrows 0 hH (by omega)
    rw [Nat.add_zero] at h0
    rw [h0, List.mem_map]
    exact ⟨H, List.mem_range.mpr (by omega), by omega⟩

/-- C18: no call of `Play`, for any canvas height and however long the run, sets the
sleep time to 1000 ms; for a height `H` that is an `int` the call after the last line
(row `-1`, call `H + 8`) fills the post colour at once (call `H + 9`), as calls 10 and 11
do for `H = 2`: the branch for `yIndex == -1` is never taken. -/
theorem pause_branch_never_taken (H n : Nat) :
    Effect.SetSleepTime 1000 ∉ (playCall H n).2 ∧
    (H < 2 ^ 31 →
      (playCall H (H + 7)).2 = [Effect.setLine (-1) { x := 255, y := 0, z := 0 }] ∧
      (playCall H (H + 8)).2
        = [Effect.setFill { x := 255, y := 174, z := 11 }, Effect.SetSleepTime 2000]) ∧
    ((playCall 2 9).2 = [Effect.setLine (-1) { x := 255, y := 0, z := 0 }] ∧
      (playCall 2 10).2
        = [Effect.setFill { x := 255, y := 174, z := 11 }, Effect.SetSleepTime 2000]) := by
  refine ⟨(Play_no_pause _ (played_yIndex_ge H n)).1, ?_, by decide⟩
  intro hH
  constructor
  · rw [playCall_eq H (H + 7) hH (by omega)]
    have h1 : ¬ H + 7 < 6 := by omega
    have h2 : H + 7 ≠ 6 := by omega
    simp only [h1, h2, if_false, le_refl, if_true]
    congr 2
    push_cast
    omega
  · rw [playCall_eq H (H + 8) hH (by omega)]
    have h1 : ¬ H + 8 < 6 := by omega
    have h2 : H + 8 ≠ 6 := by omega
    have h3 : ¬ H + 8 ≤ H + 7 := by omega
    simp only [h1, h2, h3, if_false, if_true]

end HyperHDR
